import Mathlib

/-!
# Rack: the MIDI trigger-to-CV module and the vertical list

A shallow embedding of the sixteen-channel MIDI-to-trigger module of
`src/Core/MIDITriggerToCVInterface.cpp`, of the part of the jansson JSON library
its save/load code calls, and of the layout pass of `rack::List` (`ui/List.hpp`).

* `uint8_t` values are natural numbers; a conversion into `uint8_t` is written
  with an explicit `% 256`.
* The `float` values of the module (hold times, voltages, tick durations) are
  rationals, as every finite `float` is one; the constant `1e-3f` is the `float`
  it denotes, and the subtraction of `float`, which rounds, is a parameter
  `floatSub` of the tick, about which nothing is assumed.
* The `float` values of the list are values of `Float32`, a model of IEEE 754
  binary32 with its addition, rounded to nearest, ties to even.
* The fixed arrays of sixteen entries are functions on `Fin 16`; the `for`
  loops over `0..15` are folds over `List.finRange 16`.
* A write through an index outside an array is undefined behaviour in C++ and
  is the result `none` here.
-/

namespace rack

/-! ## JSON values (jansson) -/

/-- JSON values as the jansson library represents them. -/
inductive Json where
  | null : Json
  | bool : Bool → Json
  | integer : Int → Json
  | real : ℚ → Json
  | string : String → Json
  | array : List Json → Json
  | object : List (String × Json) → Json

/-- The call `json_object_get(obj, key)`: the value stored under `key`, and the
null pointer (`none`) when `obj` is not an object or has no such key. -/
def json_object_get : Json → String → Option Json
  | Json.object fields, key => (fields.find? (fun kv => kv.1 == key)).map Prod.snd
  | _, _ => none

/-- The call `json_array_get(arr, i)`: the element at index `i`, and the null
pointer (`none`) when `arr` is not an array or `i` is out of range. -/
def json_array_get : Json → Nat → Option Json
  | Json.array items, i => items.get? i
  | _, _ => none

/-- The call `json_integer_value(j)`: the integer held by `j`, and `0` when `j` is
not a JSON integer. -/
def json_integer_value : Json → Int
  | Json.integer n => n
  | _ => 0

/-- The call `json_boolean_value(j)` (jansson's `json_is_true`): whether `j` is the
JSON value `true`. -/
def json_boolean_value : Json → Bool
  | Json.bool b => b
  | _ => false

/-- The call `json_array_append_new(arr, v)`: `v` is appended to the array `arr`;
anything that is not an array is left as it is. -/
def json_array_append_new : Json → Json → Json
  | Json.array items, v => Json.array (items ++ [v])
  | j, _ => j

/-- The call `json_object_set_new(obj, key, v)`: the value under `key` becomes `v`
(replacing an earlier value of that key); anything that is not an object is left
as it is. -/
def json_object_set_new : Json → String → Json → Json
  | Json.object fields, key, v =>
      if fields.any (fun kv => kv.1 == key) then
        Json.object (fields.map (fun kv => if kv.1 == key then (kv.1, v) else kv))
      else
        Json.object (fields ++ [(key, v)])
  | j, _, _ => j

/-! ## MIDI input -/

namespace midi

/-- Modelled from the spec: `midi::Message` (declared in `midi.hpp`) as the module
reads it, a status nibble (`getStatus`), a note number (`getNote`) and a value,
the velocity (`getValue`). -/
structure Message where
  getStatus : Nat
  getNote : Nat
  getValue : Nat

/-- Modelled from the spec: `midi::InputQueue` (declared in `midi.hpp`), of which the
module consumes the FIFO of pending messages. -/
structure InputQueue where
  queue : List Message

/-- Modelled from the spec: `InputQueue::shift` pops the next pending message, or
indicates that the queue is empty. -/
def InputQueue.shift (q : InputQueue) : Option (Message × InputQueue) :=
  match q.queue with
  | [] => none
  | msg :: rest => some (msg, { queue := rest })

end midi

/-! ## The module -/

/-- Modelled from the spec: `rescale` (declared in `math.hpp`), the linear map that
sends the range `[xMin, xMax]` onto `[yMin, yMax]`. -/
def rescale (x xMin xMax yMin yMax : ℚ) : ℚ :=
  yMin + (x - xMin) / (xMax - xMin) * (yMax - yMin)

/-- Subtraction without rounding. The subtraction of `float` agrees with it wherever the
exact difference is again a `float`; it is the instance taken in the examples. -/
def exactSub (a b : ℚ) : ℚ :=
  a - b

/-- The fields of `struct MIDITriggerToCVInterface`, with the sixteen output
voltages `outputs[TRIG_OUTPUT + i]` of the base `Module`. -/
@[ext]
structure MIDITriggerToCVInterface where
  midiInput : midi.InputQueue
  gates : Fin 16 → Bool
  gateTimes : Fin 16 → ℚ
  velocities : Fin 16 → Nat
  learningId : Int
  learnedNotes : Fin 16 → Nat
  velocity : Bool
  outputs : Fin 16 → ℚ

namespace MIDITriggerToCVInterface

/-- The body of the loop of `onReset` at index `i`. -/
def onResetBody (s : MIDITriggerToCVInterface) (i : Fin 16) : MIDITriggerToCVInterface :=
  { s with
    gates := Function.update s.gates i false
    gateTimes := Function.update s.gateTimes i 0
    learnedNotes := Function.update s.learnedNotes i ((i.val + 36) % 256) }

/-- The method `onReset`. -/
def onReset (m : MIDITriggerToCVInterface) : MIDITriggerToCVInterface :=
  { (List.finRange 16).foldl onResetBody m with learningId := -1 }

/-- The constructor: the default member initialisers (`learningId = -1`,
`learnedNotes = {}`, `velocity = false`) followed by `onReset()`. The arrays
`gates`, `gateTimes` and `velocities` and the outputs hold whatever `raw` holds. -/
def construct (raw : MIDITriggerToCVInterface) : MIDITriggerToCVInterface :=
  onReset { raw with learningId := -1, learnedNotes := fun _ => 0, velocity := false }

/-- The constant `1e-3f` that `pressNote` stores as the hold time: the `float` nearest to
`1e-3`, which is `8589935 * 2^-33`. -/
def holdEpsilon : ℚ := 8589935 / 8589934592

/-- The body of the "find id" loop of `pressNote` at index `i`. -/
def pressNoteBody (note vel : Nat) (s : MIDITriggerToCVInterface) (i : Fin 16) :
    MIDITriggerToCVInterface :=
  if s.learnedNotes i = note then
    { s with
      gates := Function.update s.gates i true
      gateTimes := Function.update s.gateTimes i holdEpsilon
      velocities := Function.update s.velocities i vel }
  else s

/-- The "learn" block of `pressNote`: with a learn cursor `>= 0` the note is written
at `learnedNotes[learningId]` and the cursor is cleared. A cursor beyond the
array makes the write undefined (`none`). -/
def pressNoteLearn (m : MIDITriggerToCVInterface) (note : Nat) : Option MIDITriggerToCVInterface :=
  if 0 ≤ m.learningId then
    if h : m.learningId.toNat < 16 then
      some { m with
        learnedNotes := Function.update m.learnedNotes ⟨m.learningId.toNat, h⟩ note
        learningId := -1 }
    else none
  else some m

/-- The method `pressNote`. -/
def pressNote (m : MIDITriggerToCVInterface) (note vel : Nat) : Option MIDITriggerToCVInterface :=
  (pressNoteLearn m note).map (fun m1 => (List.finRange 16).foldl (pressNoteBody note vel) m1)

/-- The body of the loop of `releaseNote` at index `i`. -/
def releaseNoteBody (note : Nat) (s : MIDITriggerToCVInterface) (i : Fin 16) :
    MIDITriggerToCVInterface :=
  if s.learnedNotes i = note then { s with gates := Function.update s.gates i false } else s

/-- The method `releaseNote`. -/
def releaseNote (m : MIDITriggerToCVInterface) (note : Nat) : MIDITriggerToCVInterface :=
  (List.finRange 16).foldl (releaseNoteBody note) m

/-- The method `processMessage`. -/
def processMessage (m : MIDITriggerToCVInterface) (msg : midi.Message) :
    Option MIDITriggerToCVInterface :=
  if msg.getStatus = 0x8 then some (releaseNote m msg.getNote)
  else if msg.getStatus = 0x9 then
    if msg.getValue > 0 then pressNote m msg.getNote msg.getValue
    else some (releaseNote m msg.getNote)
  else some m

/-- The `while (midiInput.shift(&msg)) processMessage(msg);` loop of `step`, by
recursion on the pending messages: each round pops the head of the queue and
processes it. -/
def drain : List midi.Message → MIDITriggerToCVInterface → Option MIDITriggerToCVInterface
  | [], m => some { m with midiInput := { queue := [] } }
  | msg :: rest, m =>
      (processMessage { m with midiInput := { queue := rest } } msg).bind (drain rest)

/-- The voltage `velocity ? rescale(velocities[i], 0, 127, 0.f, 10.f) : 10.f` that
`step` writes to output `i` while the hold time of channel `i` is positive. -/
def onLevel (s : MIDITriggerToCVInterface) (i : Fin 16) : ℚ :=
  if s.velocity then rescale (s.velocities i) 0 127 0 10 else 10

/-- The body of the output loop of `step` at index `i`, for the tick duration
`deltaTime`. The decrement `gateTimes[i] -= deltaTime` is a subtraction of `float`:
`floatSub a b` stands for the `float` that `a - b` is rounded to, and nothing is
assumed of it. -/
def stepBody (floatSub : ℚ → ℚ → ℚ) (deltaTime : ℚ) (s : MIDITriggerToCVInterface)
    (i : Fin 16) : MIDITriggerToCVInterface :=
  if s.gateTimes i > 0 then
    let s1 := { s with outputs := Function.update s.outputs i (onLevel s i) }
    if !s1.gates i then
      { s1 with
        gateTimes := Function.update s1.gateTimes i (floatSub (s1.gateTimes i) deltaTime) }
    else s1
  else
    { s with outputs := Function.update s.outputs i 0 }

/-- The output loop of `step`. -/
def stepOutputs (floatSub : ℚ → ℚ → ℚ) (deltaTime : ℚ) (m : MIDITriggerToCVInterface) :
    MIDITriggerToCVInterface :=
  (List.finRange 16).foldl (stepBody floatSub deltaTime) m

/-- The method `step`, with the sample time `deltaTime` that the engine reports and the
subtraction `floatSub` of `float`. -/
def step (floatSub : ℚ → ℚ → ℚ) (m : MIDITriggerToCVInterface) (deltaTime : ℚ) :
    Option MIDITriggerToCVInterface :=
  (drain m.midiInput.queue m).map (stepOutputs floatSub deltaTime)

/-- The loop of `dataToJson` that appends `learnedNotes[i]` to the array, `i = 0..15`. -/
def notesToJson (m : MIDITriggerToCVInterface) : Json :=
  (List.finRange 16).foldl
    (fun notesJ i => json_array_append_new notesJ (Json.integer (m.learnedNotes i)))
    (Json.array [])

/-- The method `dataToJson`; `midiToJson` is `midiInput.toJson()` of `midi.hpp`. -/
def dataToJson (midiToJson : midi.InputQueue → Json) (m : MIDITriggerToCVInterface) : Json :=
  let rootJ := Json.object []
  let rootJ := json_object_set_new rootJ "notes" (notesToJson m)
  let rootJ := json_object_set_new rootJ "midi" (midiToJson m.midiInput)
  json_object_set_new rootJ "velocity" (Json.bool m.velocity)

/-- The body of the loop of `dataFromJson` at index `i`: the entry is assigned, after
conversion to `uint8_t`, when `json_array_get` finds one. -/
def notesFromJsonBody (notesJ : Json) (s : MIDITriggerToCVInterface) (i : Fin 16) :
    MIDITriggerToCVInterface :=
  match json_array_get notesJ i.val with
  | some noteJ =>
      { s with
        learnedNotes := Function.update s.learnedNotes i ((json_integer_value noteJ % 256).toNat) }
  | none => s

/-- The method `dataFromJson`; `midiFromJson` is `midiInput.fromJson(midiJ)` of
`midi.hpp`. -/
def dataFromJson (midiFromJson : midi.InputQueue → Json → midi.InputQueue)
    (m : MIDITriggerToCVInterface) (rootJ : Json) : MIDITriggerToCVInterface :=
  let m1 :=
    match json_object_get rootJ "notes" with
    | some notesJ => (List.finRange 16).foldl (notesFromJsonBody notesJ) m
    | none => m
  let m2 :=
    match json_object_get rootJ "midi" with
    | some midiJ => { m1 with midiInput := midiFromJson m1.midiInput midiJ }
    | none => m1
  match json_object_get rootJ "velocity" with
  | some velocityJ => { m2 with velocity := json_boolean_value velocityJ }
  | none => m2

end MIDITriggerToCVInterface

/-! ## The grid choice of the panel -/

namespace MidiTrigChoice

/-- The method `onSelect` of the choice with identifier `id`, on a module that is
present: the learn cursor becomes `id`. -/
def onSelect (m : MIDITriggerToCVInterface) (id : Int) : MIDITriggerToCVInterface :=
  { m with learningId := id }

/-- The method `onDeselect`, on a module that is present: the learn cursor is
cleared. -/
def onDeselect (m : MIDITriggerToCVInterface) : MIDITriggerToCVInterface :=
  { m with learningId := -1 }

end MidiTrigChoice

/-! ## Sample states -/

/-- A module memory before construction: every array cleared, nothing pending. -/
def rawModule : MIDITriggerToCVInterface where
  midiInput := { queue := [] }
  gates := fun _ => false
  gateTimes := fun _ => 0
  velocities := fun _ => 0
  learningId := -1
  learnedNotes := fun _ => 0
  velocity := false
  outputs := fun _ => 0

/-- A freshly constructed module. -/
def freshModule : MIDITriggerToCVInterface :=
  MIDITriggerToCVInterface.construct rawModule

/-- A module in which channels 0 and 1 are both mapped to note 60. -/
def sharedNoteModule : MIDITriggerToCVInterface :=
  { freshModule with learnedNotes := fun i => if i.val < 2 then 60 else 36 + i.val }

/-- A freshly constructed module whose channel 3 has been selected for learning. -/
def learningModule : MIDITriggerToCVInterface :=
  MidiTrigChoice.onSelect freshModule 3

/-- A fresh module in velocity mode with one pending note-on: note 36, velocity 127. -/
def pendingPressModule : MIDITriggerToCVInterface :=
  { freshModule with midiInput := { queue := [⟨0x9, 36, 127⟩] }, velocity := true }

/-- The module `pendingPressModule` once that note-on has been drained. -/
def drainedPressModule : MIDITriggerToCVInterface :=
  { (List.finRange 16).foldl (MIDITriggerToCVInterface.pressNoteBody 36 127)
      { pendingPressModule with midiInput := { queue := [] } } with
    midiInput := { queue := [] } }

/-- A fresh module with a note-on and the matching note-off pending for the same tick:
note 36, velocity 100. -/
def pendingPulseModule : MIDITriggerToCVInterface :=
  { freshModule with midiInput := { queue := [⟨0x9, 36, 100⟩, ⟨0x8, 36, 0⟩] } }

/-- A module with a non-default mapping (note `100 - i` on channel `i`) in velocity mode. -/
def remappedModule : MIDITriggerToCVInterface :=
  { freshModule with learnedNotes := fun i => 100 - i.val, velocity := true }

/-- A saved record with a two-entry "notes" array and no "velocity" key. -/
def shortNotesRecord : Json :=
  Json.object [("notes", Json.array [Json.integer 60, Json.integer 61])]

/-- A saved record with a "velocity" key and no "notes" key. -/
def velocityOnlyRecord : Json :=
  Json.object [("velocity", Json.bool true)]

/-! ## The tick loop, the label of a grid choice and the velocity menu item -/

namespace MIDITriggerToCVInterface

/-- The `while (midiInput.shift(&msg)) processMessage(msg);` loop of `step`, round by
round on `InputQueue.shift`, for at most `fuel` rounds. The outer `none` says that
the rounds ran out before `shift` reported an empty queue; the inner `none` is an
undefined write in `processMessage`. -/
def drainLoop : Nat → MIDITriggerToCVInterface → Option (Option MIDITriggerToCVInterface)
  | 0, _ => none
  | fuel + 1, m =>
      match m.midiInput.shift with
      | none => some (some m)
      | some (msg, q) =>
          match processMessage { m with midiInput := q } msg with
          | none => some none
          | some m1 => drainLoop fuel m1

end MIDITriggerToCVInterface

namespace MidiTrigChoice

/-- The table `noteNames` of `MidiTrigChoice::step`: its twelve entries, the names of
the semitones 0 to 5 followed by the names of the semitones 6 to 11. -/
def noteNames : List String :=
  ["C", "C#", "D", "D#", "E", "F"] ++ ["F#", "G", "G#", "A", "A#", "B"]

/-- The label computation of `MidiTrigChoice::step` for the stored note `note`:
`oct = note / 12 - 1`, `semi = note % 12` and `string::f("%s%d", noteNames[semi], oct)`,
with `fmt` the formatter `string::f` of `string.hpp`. A read outside of the table
is `none`. -/
def noteLabel (fmt : String → Int → String) (note : Nat) : Option String :=
  let oct : Int := ((note / 12 : Nat) : Int) - 1
  let semi : Nat := note % 12
  (noteNames.get? semi).map (fun name => fmt name oct)

/-- The text that `MidiTrigChoice::step` sets for the choice with identifier `id`, on
a module that is present: "LRN" while the choice is learning, the note label of
`learnedNotes[id]` otherwise. A read of `learnedNotes` outside `0..15` is `none`. -/
def step (fmt : String → Int → String) (m : MIDITriggerToCVInterface) (id : Int) :
    Option String :=
  if m.learningId = id then some "LRN"
  else if h : 0 ≤ id ∧ id.toNat < 16 then noteLabel fmt (m.learnedNotes ⟨id.toNat, h.2⟩)
  else none

/-- The conversion `"%s%d"` of C's `printf`: the string followed by the integer in
decimal. -/
def formatSD (name : String) (oct : Int) : String :=
  name ++ toString oct

end MidiTrigChoice

namespace VelocityItem

/-- The method `VelocityItem::onAction`: `module->velocity ^= true`. -/
def onAction (m : MIDITriggerToCVInterface) : MIDITriggerToCVInterface :=
  { m with velocity := xor m.velocity true }

end VelocityItem

/-! ## The type `float` -/

/-- The values of the C++ type `float` (IEEE 754 binary32). A finite `float` is a whole
number of units of `2^-149`, the smallest positive `float`: `finite k` is the
value `k * 2^-149`, and the finite `float`s are those `k` whose magnitude has at
most 24 significant bits and is below `2^128 * 2^149`. `inf false` and `inf true`
are plus and minus infinity. The two zeros are one value, `finite 0`, and the
NaNs are one value. -/
inductive Float32 where
  | finite : Int → Float32
  | inf : Bool → Float32
  | nan : Float32
  deriving DecidableEq

namespace Float32

/-- The number of low bits of `a` that do not fit in 24 bits: the least `e` with
`a / 2^e < 2^24`, found by halving at most `fuel` times. -/
def dropBits : Nat → Nat → Nat
  | 0, _ => 0
  | fuel + 1, a => if a < 2 ^ 24 then 0 else dropBits fuel (a / 2) + 1

/-- The magnitude `a`, in units of `2^-149`, rounded to 24 significant bits: to the
nearest such magnitude, and to the one with an even last bit when `a` is half way
between two. -/
def roundNat (a : Nat) : Nat :=
  let e := dropBits a a
  let m := a / 2 ^ e
  let r := a % 2 ^ e
  let half := 2 ^ e / 2
  let m1 := if r > half ∨ (r = half ∧ e ≠ 0 ∧ m % 2 = 1) then m + 1 else m
  m1 * 2 ^ e

/-- The `float` that the exact value `n * 2^-149` is rounded to: the nearest `float`,
ties to even, and infinity when the rounded magnitude reaches `2^128`. -/
def round (n : Int) : Float32 :=
  if roundNat n.natAbs ≥ 2 ^ 128 * 2 ^ 149 then inf (decide (n < 0))
  else finite (if n < 0 then -(roundNat n.natAbs : Int) else (roundNat n.natAbs : Int))

/-- The addition of `float`: the exact sum of two finite values, rounded; an infinity
absorbs a finite value, and opposite infinities and NaN give NaN. -/
def add : Float32 → Float32 → Float32
  | finite a, finite b => round (a + b)
  | finite _, inf t => inf t
  | inf s, finite _ => inf s
  | inf s, inf t => if s = t then inf s else nan
  | _, _ => nan

/-- The `float` of a natural number that is a `float`, such as every `n < 2^24`. -/
def ofNat (n : Nat) : Float32 :=
  finite ((n * 2 ^ 149 : Nat) : Int)

end Float32

/-! ## The vertical list of `ui/List.hpp` -/

namespace math

/-- Modelled from the spec: `math::Vec` (declared in `math.hpp`), a pair of `float`
coordinates. -/
structure Vec where
  x : Float32
  y : Float32

/-- Modelled from the spec: `math::Rect` (declared in `math.hpp`), a position and a size. -/
structure Rect where
  pos : Vec
  size : Vec

end math

/-- Modelled from the spec: a child `Widget` as the list reads and writes it, a box
and a visibility flag. -/
structure Widget where
  box : math.Rect
  visible : Bool

/-- The widget `rack::List` of `ui/List.hpp`: its own box and its children in order.
(The Lean name keeps `List` for Lean's lists.) -/
structure ListWidget where
  box : math.Rect
  children : List Widget

namespace ListWidget

/-- The loop `for (Widget *child : children)` of `List::step`, from `child` on, with
`box` the box of the container so far; it returns the box of the container and
the children after the loop. The statement `box.size.y += child->box.size.y` is
an addition of `float`. -/
def stepLoop : math.Rect → List Widget → math.Rect × List Widget
  | box, [] => (box, [])
  | box, child :: rest =>
      if !child.visible then
        ((stepLoop box rest).1, child :: (stepLoop box rest).2)
      else
        let child1 : Widget :=
          { child with
            box := { child.box with pos := { x := Float32.finite 0, y := box.size.y } } }
        let box1 : math.Rect :=
          { box with size := { box.size with y := box.size.y.add child1.box.size.y } }
        let child2 : Widget :=
          { child1 with
            box := { child1.box with size := { child1.box.size with x := box1.size.x } } }
        ((stepLoop box1 rest).1, child2 :: (stepLoop box1 rest).2)

/-- The method `List::step`; `widgetStep` is the base call `Widget::step()`, which
steps the children. -/
def step (widgetStep : ListWidget → ListWidget) (w : ListWidget) : ListWidget :=
  let w1 := widgetStep w
  let box0 : math.Rect := { w1.box with size := { w1.box.size with y := Float32.finite 0 } }
  { box := (stepLoop box0 w1.children).1, children := (stepLoop box0 w1.children).2 }

/-- The heights of the visible widgets of a list added to `y0` one after another, in the
order of the list, each addition an addition of `float`. -/
def runningHeight (y0 : Float32) (children : List Widget) : Float32 :=
  children.foldl (fun y c => if c.visible then y.add c.box.size.y else y) y0

end ListWidget

/-- A widget at the origin with the width `width`, the height `height` and the
visibility `visible`, all sizes whole numbers. -/
def sampleWidget (width height : Nat) (visible : Bool) : Widget where
  box := { pos := { x := Float32.finite 0, y := Float32.finite 0 },
           size := { x := Float32.ofNat width, y := Float32.ofNat height } }
  visible := visible

/-- A list of width 120 at position (5, 7) with three children of heights 10, 0 and 20,
the second one invisible. -/
def sampleList : ListWidget where
  box := { pos := { x := Float32.ofNat 5, y := Float32.ofNat 7 },
           size := { x := Float32.ofNat 120, y := Float32.ofNat 3 } }
  children := [sampleWidget 50 10 true, sampleWidget 60 0 false, sampleWidget 70 20 true]

/-- A list of width 120 with three visible children of heights 16777216 (`2^24`), 1
and 1. -/
def tallList : ListWidget where
  box := { pos := { x := Float32.finite 0, y := Float32.finite 0 },
           size := { x := Float32.ofNat 120, y := Float32.finite 0 } }
  children := [sampleWidget 50 16777216 true, sampleWidget 60 1 true, sampleWidget 70 1 true]

/-- A saved record whose "notes" array starts with the integer 300, a string and the
integer -1. -/
def badNotesRecord : Json :=
  Json.object [("notes", Json.array [Json.integer 300, Json.string "x", Json.integer (-1)])]

/-! ## Sequences of events on a module -/

/-- Modelled from the spec: a message that arrives from the input source is queued
behind the messages that are already pending. -/
def midi.InputQueue.push (q : midi.InputQueue) (msg : midi.Message) : midi.InputQueue :=
  { queue := q.queue ++ [msg] }

/-- The events that act on a module: the calls of its methods, the arrival of a
message in the input queue, the select and deselect events of a grid choice and
the velocity item of the context menu. -/
inductive Action where
  | pressNote : Nat → Nat → Action
  | releaseNote : Nat → Action
  | processMessage : midi.Message → Action
  | receive : midi.Message → Action
  | step : ℚ → Action
  | dataFromJson : Json → Action
  | onSelect : Int → Action
  | onDeselect : Action
  | onReset : Action
  | toggleVelocity : Action

/-- The effect of one event; `floatSub` is the subtraction of `float` and
`midiFromJson` is `midiInput.fromJson` of `midi.hpp`. -/
def Action.apply (floatSub : ℚ → ℚ → ℚ)
    (midiFromJson : midi.InputQueue → Json → midi.InputQueue)
    (m : MIDITriggerToCVInterface) : Action → Option MIDITriggerToCVInterface
  | Action.pressNote note vel => MIDITriggerToCVInterface.pressNote m note vel
  | Action.releaseNote note => some (MIDITriggerToCVInterface.releaseNote m note)
  | Action.processMessage msg => MIDITriggerToCVInterface.processMessage m msg
  | Action.receive msg => some { m with midiInput := m.midiInput.push msg }
  | Action.step deltaTime => MIDITriggerToCVInterface.step floatSub m deltaTime
  | Action.dataFromJson rootJ => some (MIDITriggerToCVInterface.dataFromJson midiFromJson m rootJ)
  | Action.onSelect id => some (MidiTrigChoice.onSelect m id)
  | Action.onDeselect => some (MidiTrigChoice.onDeselect m)
  | Action.onReset => some (MIDITriggerToCVInterface.onReset m)
  | Action.toggleVelocity => some (VelocityItem.onAction m)

/-- The effect of a sequence of events, from the first to the last. -/
def run (floatSub : ℚ → ℚ → ℚ) (midiFromJson : midi.InputQueue → Json → midi.InputQueue) :
    MIDITriggerToCVInterface → List Action → Option MIDITriggerToCVInterface
  | m, [] => some m
  | m, a :: rest =>
      (Action.apply floatSub midiFromJson m a).bind
        (fun m1 => run floatSub midiFromJson m1 rest)

/-- Two module states that agree on every field except `velocities`, and agree on the
velocity of every channel whose hold time is positive. -/
def SameUpToIdleVelocities (m n : MIDITriggerToCVInterface) : Prop :=
  m.midiInput = n.midiInput ∧ m.gates = n.gates ∧ m.gateTimes = n.gateTimes ∧
  m.learningId = n.learningId ∧ m.learnedNotes = n.learnedNotes ∧ m.velocity = n.velocity ∧
  m.outputs = n.outputs ∧ ∀ i : Fin 16, 0 < m.gateTimes i → m.velocities i = n.velocities i

/-- A sequence of events on a fresh module: channel 0 learns note 72, the note is
pressed, two ticks pass, a record is loaded and the note is released. -/
def sampleActions : List Action :=
  [Action.onSelect 0, Action.receive ⟨0x9, 72, 90⟩, Action.step (1 / 44100),
    Action.toggleVelocity, Action.pressNote 72 100, Action.step (1 / 44100),
    Action.dataFromJson shortNotesRecord, Action.releaseNote 60, Action.step (1 / 44100)]

/-- A fresh module, reset, on which note 36 was pressed and one tick has passed. -/
def heldNoteModule : MIDITriggerToCVInterface :=
  MIDITriggerToCVInterface.stepOutputs exactSub (1 / 44100)
    { (List.finRange 16).foldl (MIDITriggerToCVInterface.pressNoteBody 36 100)
        (MIDITriggerToCVInterface.onReset freshModule) with
      midiInput := { queue := [] } }

/-- Two results that are both undefined, or both states that agree up to the
velocities of idle channels. -/
def OptionSame : Option MIDITriggerToCVInterface → Option MIDITriggerToCVInterface → Prop
  | some m, some n => SameUpToIdleVelocities m n
  | none, none => True
  | _, _ => False

/-- The learn cursor is `-1` or the index of a channel. -/
def LearnCursorValid (m : MIDITriggerToCVInterface) : Prop :=
  m.learningId = -1 ∨ (0 ≤ m.learningId ∧ m.learningId < 16)

/-- The constant `1e-3f` is positive. -/
theorem holdEpsilon_pos : 0 < MIDITriggerToCVInterface.holdEpsilon := by
  unfold MIDITriggerToCVInterface.holdEpsilon
  norm_num

/-- The constant `1e-3f` is a `float`, `8589935 * 2^-33` with `2^23 <= 8589935 < 2^24`,
and no `float` is nearer to `1e-3`: it is within half of `2^-33` of it. -/
theorem holdEpsilon_nearest :
    MIDITriggerToCVInterface.holdEpsilon = 8589935 / 2 ^ 33 ∧
    (2 : ℚ) ^ 23 ≤ 8589935 ∧ (8589935 : ℚ) < 2 ^ 24 ∧
    |MIDITriggerToCVInterface.holdEpsilon - 1 / 1000| < 1 / 2 ^ 34 := by
  unfold MIDITriggerToCVInterface.holdEpsilon
  refine ⟨by norm_num, by norm_num, by norm_num, ?_⟩
  rw [abs_lt]
  constructor <;> norm_num

/-! ## Loop lemmas -/

namespace MIDITriggerToCVInterface

/-- What the "find id" loop of `pressNote` does over the indices of a list `l`. -/
theorem foldl_pressNoteBody (note vel : Nat) (l : List (Fin 16)) (s : MIDITriggerToCVInterface) :
    (l.foldl (pressNoteBody note vel) s).midiInput = s.midiInput ∧
    (l.foldl (pressNoteBody note vel) s).learningId = s.learningId ∧
    (l.foldl (pressNoteBody note vel) s).learnedNotes = s.learnedNotes ∧
    (l.foldl (pressNoteBody note vel) s).velocity = s.velocity ∧
    (l.foldl (pressNoteBody note vel) s).outputs = s.outputs ∧
    ∀ j : Fin 16,
      (l.foldl (pressNoteBody note vel) s).gates j
        = (if j ∈ l ∧ s.learnedNotes j = note then true else s.gates j) ∧
      (l.foldl (pressNoteBody note vel) s).gateTimes j
        = (if j ∈ l ∧ s.learnedNotes j = note then holdEpsilon else s.gateTimes j) ∧
      (l.foldl (pressNoteBody note vel) s).velocities j
        = (if j ∈ l ∧ s.learnedNotes j = note then vel else s.velocities j) := by
  induction l generalizing s with
  | nil => simp
  | cons i l ih =>
    simp only [List.foldl_cons]
    have ih2 := ih (pressNoteBody note vel s i)
    by_cases hi : s.learnedNotes i = note
    · have hb : pressNoteBody note vel s i =
          { s with
            gates := Function.update s.gates i true
            gateTimes := Function.update s.gateTimes i holdEpsilon
            velocities := Function.update s.velocities i vel } := by
        simp [pressNoteBody, hi]
      rw [hb] at ih2 ⊢
      obtain ⟨h1, h2, h3, h4, h5, h6⟩ := ih2
      refine ⟨h1, h2, h3, h4, h5, fun j => ?_⟩
      obtain ⟨g1, g2, g3⟩ := h6 j
      rw [g1, g2, g3]
      by_cases hj : j = i
      · subst hj
        by_cases hm : j ∈ l <;> simp [hi, hm]
      · by_cases hm : j ∈ l <;> by_cases hn : s.learnedNotes j = note <;>
          simp [hj, hm, hn, Function.update_noteq]
    · have hb : pressNoteBody note vel s i = s := by simp [pressNoteBody, hi]
      rw [hb] at ih2 ⊢
      obtain ⟨h1, h2, h3, h4, h5, h6⟩ := ih2
      refine ⟨h1, h2, h3, h4, h5, fun j => ?_⟩
      obtain ⟨g1, g2, g3⟩ := h6 j
      rw [g1, g2, g3]
      by_cases hj : j = i
      · subst hj
        simp [hi]
      · simp [hj]

/-- What the loop of `releaseNote` does over the indices of a list `l`. -/
theorem foldl_releaseNoteBody (note : Nat) (l : List (Fin 16)) (s : MIDITriggerToCVInterface) :
    (l.foldl (releaseNoteBody note) s).midiInput = s.midiInput ∧
    (l.foldl (releaseNoteBody note) s).learningId = s.learningId ∧
    (l.foldl (releaseNoteBody note) s).learnedNotes = s.learnedNotes ∧
    (l.foldl (releaseNoteBody note) s).velocity = s.velocity ∧
    (l.foldl (releaseNoteBody note) s).outputs = s.outputs ∧
    (l.foldl (releaseNoteBody note) s).gateTimes = s.gateTimes ∧
    (l.foldl (releaseNoteBody note) s).velocities = s.velocities ∧
    ∀ j : Fin 16,
      (l.foldl (releaseNoteBody note) s).gates j
        = (if j ∈ l ∧ s.learnedNotes j = note then false else s.gates j) := by
  induction l generalizing s with
  | nil => simp
  | cons i l ih =>
    simp only [List.foldl_cons]
    have ih2 := ih (releaseNoteBody note s i)
    by_cases hi : s.learnedNotes i = note
    · have hb : releaseNoteBody note s i =
          { s with gates := Function.update s.gates i false } := by
        simp [releaseNoteBody, hi]
      rw [hb] at ih2 ⊢
      obtain ⟨h1, h2, h3, h4, h5, h6, h7, h8⟩ := ih2
      refine ⟨h1, h2, h3, h4, h5, h6, h7, fun j => ?_⟩
      rw [h8 j]
      by_cases hj : j = i
      · subst hj
        by_cases hm : j ∈ l <;> simp [hi, hm]
      · by_cases hm : j ∈ l <;> by_cases hn : s.learnedNotes j = note <;>
          simp [hj, hm, hn, Function.update_noteq]
    · have hb : releaseNoteBody note s i = s := by simp [releaseNoteBody, hi]
      rw [hb] at ih2 ⊢
      obtain ⟨h1, h2, h3, h4, h5, h6, h7, h8⟩ := ih2
      refine ⟨h1, h2, h3, h4, h5, h6, h7, fun j => ?_⟩
      rw [h8 j]
      by_cases hj : j = i
      · subst hj
        simp [hi]
      · simp [hj]

/-- What the output loop of `step` does over the indices of a duplicate-free list `l`. -/
theorem foldl_stepBody (floatSub : ℚ → ℚ → ℚ) (dt : ℚ) (l : List (Fin 16)) (hl : l.Nodup)
    (s : MIDITriggerToCVInterface) :
    (l.foldl (stepBody floatSub dt) s).midiInput = s.midiInput ∧
    (l.foldl (stepBody floatSub dt) s).gates = s.gates ∧
    (l.foldl (stepBody floatSub dt) s).velocities = s.velocities ∧
    (l.foldl (stepBody floatSub dt) s).learningId = s.learningId ∧
    (l.foldl (stepBody floatSub dt) s).learnedNotes = s.learnedNotes ∧
    (l.foldl (stepBody floatSub dt) s).velocity = s.velocity ∧
    ∀ j : Fin 16,
      (l.foldl (stepBody floatSub dt) s).outputs j
        = (if j ∈ l then (if 0 < s.gateTimes j then onLevel s j else 0) else s.outputs j) ∧
      (l.foldl (stepBody floatSub dt) s).gateTimes j
        = (if j ∈ l ∧ 0 < s.gateTimes j ∧ s.gates j = false then floatSub (s.gateTimes j) dt
            else s.gateTimes j) := by
  induction l generalizing s with
  | nil => simp
  | cons i l ih =>
    simp only [List.foldl_cons]
    have hil : i ∉ l := (List.nodup_cons.mp hl).1
    obtain ⟨h1, h2, h3, h4, h5, h6, h7⟩ := ih (List.nodup_cons.mp hl).2 (stepBody floatSub dt s i)
    have b1 : (stepBody floatSub dt s i).midiInput = s.midiInput := by
      unfold stepBody; dsimp only; split_ifs <;> rfl
    have b2 : (stepBody floatSub dt s i).gates = s.gates := by
      unfold stepBody; dsimp only; split_ifs <;> rfl
    have b3 : (stepBody floatSub dt s i).velocities = s.velocities := by
      unfold stepBody; dsimp only; split_ifs <;> rfl
    have b4 : (stepBody floatSub dt s i).learningId = s.learningId := by
      unfold stepBody; dsimp only; split_ifs <;> rfl
    have b5 : (stepBody floatSub dt s i).learnedNotes = s.learnedNotes := by
      unfold stepBody; dsimp only; split_ifs <;> rfl
    have b6 : (stepBody floatSub dt s i).velocity = s.velocity := by
      unfold stepBody; dsimp only; split_ifs <;> rfl
    have b7 : (stepBody floatSub dt s i).outputs
        = Function.update s.outputs i (if 0 < s.gateTimes i then onLevel s i else 0) := by
      unfold stepBody; dsimp only; split_ifs <;> rfl
    have b8 : (stepBody floatSub dt s i).gateTimes
        = Function.update s.gateTimes i
            (if 0 < s.gateTimes i ∧ s.gates i = false then floatSub (s.gateTimes i) dt
              else s.gateTimes i) := by
      unfold stepBody
      by_cases hg : 0 < s.gateTimes i <;> by_cases hb : s.gates i = false <;>
        simp [hg, hb]
    have b9 : ∀ j, onLevel (stepBody floatSub dt s i) j = onLevel s j := by
      intro j; simp [onLevel, b3, b6]
    refine ⟨h1.trans b1, h2.trans b2, h3.trans b3, h4.trans b4, h5.trans b5, h6.trans b6,
      fun j => ?_⟩
    obtain ⟨g1, g2⟩ := h7 j
    rw [g1, g2, b7, b8, b2, b9]
    by_cases hj : j = i
    · subst hj
      simp [hil]
    · simp [hj, Function.update_noteq]

/-- The output pass of `step`: the voltage of every channel, its hold time after the
pass, and the fields the pass leaves alone. -/
theorem stepOutputs_spec (floatSub : ℚ → ℚ → ℚ) (dt : ℚ) (s : MIDITriggerToCVInterface) :
    (stepOutputs floatSub dt s).midiInput = s.midiInput ∧
    (stepOutputs floatSub dt s).gates = s.gates ∧
    (stepOutputs floatSub dt s).velocities = s.velocities ∧
    (stepOutputs floatSub dt s).learningId = s.learningId ∧
    (stepOutputs floatSub dt s).learnedNotes = s.learnedNotes ∧
    (stepOutputs floatSub dt s).velocity = s.velocity ∧
    ∀ j : Fin 16,
      (stepOutputs floatSub dt s).outputs j = (if 0 < s.gateTimes j then onLevel s j else 0) ∧
      (stepOutputs floatSub dt s).gateTimes j
        = (if 0 < s.gateTimes j ∧ s.gates j = false then floatSub (s.gateTimes j) dt
            else s.gateTimes j) := by
  obtain ⟨h1, h2, h3, h4, h5, h6, h7⟩ := foldl_stepBody floatSub dt (List.finRange 16) (List.nodup_finRange 16) s
  refine ⟨h1, h2, h3, h4, h5, h6, fun j => ?_⟩
  obtain ⟨g1, g2⟩ := h7 j
  unfold stepOutputs
  rw [g1, g2]
  simp [List.mem_finRange]

/-- What the loop of `onReset` does over the indices of a list `l`. -/
theorem foldl_onResetBody (l : List (Fin 16)) (s : MIDITriggerToCVInterface) :
    (l.foldl onResetBody s).midiInput = s.midiInput ∧
    (l.foldl onResetBody s).velocities = s.velocities ∧
    (l.foldl onResetBody s).learningId = s.learningId ∧
    (l.foldl onResetBody s).velocity = s.velocity ∧
    (l.foldl onResetBody s).outputs = s.outputs ∧
    ∀ j : Fin 16,
      (l.foldl onResetBody s).gates j = (if j ∈ l then false else s.gates j) ∧
      (l.foldl onResetBody s).gateTimes j = (if j ∈ l then 0 else s.gateTimes j) ∧
      (l.foldl onResetBody s).learnedNotes j
        = (if j ∈ l then (j.val + 36) % 256 else s.learnedNotes j) := by
  induction l generalizing s with
  | nil => simp
  | cons i l ih =>
    simp only [List.foldl_cons]
    obtain ⟨h1, h2, h3, h4, h5, h6⟩ := ih (onResetBody s i)
    refine ⟨h1, h2, h3, h4, h5, fun j => ?_⟩
    obtain ⟨g1, g2, g3⟩ := h6 j
    rw [g1, g2, g3]
    by_cases hj : j = i
    · subst hj
      by_cases hm : j ∈ l <;> simp [onResetBody, hm]
    · by_cases hm : j ∈ l <;> simp [onResetBody, hj, hm, Function.update_noteq]

/-- What the loop of `dataFromJson` does over the indices of a list `l`. -/
theorem foldl_notesFromJsonBody (notesJ : Json) (l : List (Fin 16))
    (s : MIDITriggerToCVInterface) :
    (l.foldl (notesFromJsonBody notesJ) s).midiInput = s.midiInput ∧
    (l.foldl (notesFromJsonBody notesJ) s).gates = s.gates ∧
    (l.foldl (notesFromJsonBody notesJ) s).gateTimes = s.gateTimes ∧
    (l.foldl (notesFromJsonBody notesJ) s).velocities = s.velocities ∧
    (l.foldl (notesFromJsonBody notesJ) s).learningId = s.learningId ∧
    (l.foldl (notesFromJsonBody notesJ) s).velocity = s.velocity ∧
    (l.foldl (notesFromJsonBody notesJ) s).outputs = s.outputs ∧
    ∀ j : Fin 16,
      (l.foldl (notesFromJsonBody notesJ) s).learnedNotes j
        = (if j ∈ l then
            (match json_array_get notesJ j.val with
              | some noteJ => (json_integer_value noteJ % 256).toNat
              | none => s.learnedNotes j)
          else s.learnedNotes j) := by
  induction l generalizing s with
  | nil => simp
  | cons i l ih =>
    simp only [List.foldl_cons]
    have ih2 := ih (notesFromJsonBody notesJ s i)
    cases hget : json_array_get notesJ i.val with
    | none =>
      have hb : notesFromJsonBody notesJ s i = s := by simp [notesFromJsonBody, hget]
      rw [hb] at ih2 ⊢
      obtain ⟨h1, h2, h3, h4, h5, h6, h7, h8⟩ := ih2
      refine ⟨h1, h2, h3, h4, h5, h6, h7, fun j => ?_⟩
      rw [h8 j]
      by_cases hj : j = i
      · subst hj
        by_cases hm : j ∈ l <;> simp [hget, hm]
      · simp [hj]
    | some noteJ =>
      have hb : notesFromJsonBody notesJ s i =
          { s with
            learnedNotes :=
              Function.update s.learnedNotes i ((json_integer_value noteJ % 256).toNat) } := by
        simp [notesFromJsonBody, hget]
      rw [hb] at ih2 ⊢
      obtain ⟨h1, h2, h3, h4, h5, h6, h7, h8⟩ := ih2
      refine ⟨h1, h2, h3, h4, h5, h6, h7, fun j => ?_⟩
      rw [h8 j]
      by_cases hj : j = i
      · subst hj
        by_cases hm : j ∈ l <;> simp [hget, hm]
      · by_cases hm : j ∈ l
        · simp only [hm, if_true, List.mem_cons, or_true]
          cases json_array_get notesJ j.val <;> simp [hj, Function.update_noteq]
        · simp [hj, hm, Function.update_noteq]

/-- The loop of `dataToJson` appends one integer per index of the list. -/
theorem foldl_append_notes (f : Fin 16 → Nat) (l : List (Fin 16)) (acc : List Json) :
    l.foldl (fun notesJ i => json_array_append_new notesJ (Json.integer (f i))) (Json.array acc)
      = Json.array (acc ++ l.map (fun i => Json.integer (f i))) := by
  induction l generalizing acc with
  | nil => simp
  | cons i l ih =>
    have hstep : json_array_append_new (Json.array acc) (Json.integer (f i))
        = Json.array (acc ++ [Json.integer (f i)]) := rfl
    rw [List.foldl_cons, hstep, ih]
    simp

/-- The array that `dataToJson` stores under "notes". -/
theorem notesToJson_eq (m : MIDITriggerToCVInterface) :
    notesToJson m
      = Json.array ((List.finRange 16).map (fun i => Json.integer (m.learnedNotes i))) := by
  unfold notesToJson
  rw [foldl_append_notes]
  simp

/-- The record that `dataToJson` builds. -/
theorem dataToJson_eq (midiToJson : midi.InputQueue → Json) (m : MIDITriggerToCVInterface) :
    dataToJson midiToJson m
      = Json.object [("notes", notesToJson m), ("midi", midiToJson m.midiInput),
          ("velocity", Json.bool m.velocity)] := by
  simp [dataToJson, json_object_set_new]

/-- The learned notes after `dataFromJson`, entry by entry. -/
theorem dataFromJson_learnedNotes (midiFromJson : midi.InputQueue → Json → midi.InputQueue)
    (m : MIDITriggerToCVInterface) (rootJ : Json) (j : Fin 16) :
    (dataFromJson midiFromJson m rootJ).learnedNotes j
      = (match json_object_get rootJ "notes" with
          | some notesJ =>
              (match json_array_get notesJ j.val with
                | some noteJ => (json_integer_value noteJ % 256).toNat
                | none => m.learnedNotes j)
          | none => m.learnedNotes j) := by
  unfold dataFromJson
  cases hn : json_object_get rootJ "notes" with
  | none =>
    cases json_object_get rootJ "midi" <;> cases json_object_get rootJ "velocity" <;> rfl
  | some notesJ =>
    have h8 := (foldl_notesFromJsonBody notesJ (List.finRange 16) m).2.2.2.2.2.2.2 j
    rw [if_pos (List.mem_finRange j)] at h8
    cases json_object_get rootJ "midi" <;> cases json_object_get rootJ "velocity" <;>
      exact h8

/-- The velocity flag after `dataFromJson`. -/
theorem dataFromJson_velocity (midiFromJson : midi.InputQueue → Json → midi.InputQueue)
    (m : MIDITriggerToCVInterface) (rootJ : Json) :
    (dataFromJson midiFromJson m rootJ).velocity
      = (match json_object_get rootJ "velocity" with
          | some velocityJ => json_boolean_value velocityJ
          | none => m.velocity) := by
  unfold dataFromJson
  cases hn : json_object_get rootJ "notes" with
  | none =>
    cases json_object_get rootJ "midi" <;> cases json_object_get rootJ "velocity" <;> rfl
  | some notesJ =>
    have h6 := (foldl_notesFromJsonBody notesJ (List.finRange 16) m).2.2.2.2.2.1
    cases json_object_get rootJ "midi" <;> cases json_object_get rootJ "velocity" <;>
      first | rfl | exact h6

/-- Outside learn mode `pressNote` is its "find id" loop. -/
theorem pressNote_of_not_learning (m : MIDITriggerToCVInterface) (note vel : Nat)
    (h : m.learningId < 0) :
    pressNote m note vel = some ((List.finRange 16).foldl (pressNoteBody note vel) m) := by
  have h0 : ¬ (0 ≤ m.learningId) := not_le.mpr h
  simp [pressNote, pressNoteLearn, h0]

/-- With channel `K` learning, `pressNote` stores the note at `K`, clears the cursor
and then runs its "find id" loop. -/
theorem pressNote_of_learning (m : MIDITriggerToCVInterface) (K : Fin 16) (note vel : Nat)
    (h : m.learningId = (K.val : Int)) :
    pressNote m note vel = some ((List.finRange 16).foldl (pressNoteBody note vel)
      { m with learnedNotes := Function.update m.learnedNotes K note, learningId := -1 }) := by
  have h0 : 0 ≤ m.learningId := by rw [h]; exact Int.natCast_nonneg _
  have h1 : m.learningId.toNat = K.val := by rw [h]; exact Int.toNat_natCast _
  have h2 : m.learningId.toNat < 16 := by rw [h1]; exact K.isLt
  have h3 : (⟨m.learningId.toNat, h2⟩ : Fin 16) = K := Fin.ext h1
  simp [pressNote, pressNoteLearn, h0, h2, h3]

/-- The method `pressNote` leaves the input queue alone. -/
theorem pressNote_midiInput (m m2 : MIDITriggerToCVInterface) (note vel : Nat)
    (h : pressNote m note vel = some m2) : m2.midiInput = m.midiInput := by
  unfold pressNote at h
  cases hl : pressNoteLearn m note with
  | none => rw [hl] at h; simp at h
  | some m1 =>
    rw [hl] at h
    simp only [Option.map_some', Option.some.injEq] at h
    have h1 : m1.midiInput = m.midiInput := by
      unfold pressNoteLearn at hl
      split_ifs at hl
      · simp only [Option.some.injEq] at hl
        rw [← hl]
      · simp only [Option.some.injEq] at hl
        rw [hl]
    rw [← h, (foldl_pressNoteBody note vel (List.finRange 16) m1).1, h1]

/-- The method `processMessage` leaves the input queue alone. -/
theorem processMessage_midiInput (m m2 : MIDITriggerToCVInterface) (msg : midi.Message)
    (h : processMessage m msg = some m2) : m2.midiInput = m.midiInput := by
  have hr : ∀ n, (releaseNote m n).midiInput = m.midiInput := fun n =>
    (foldl_releaseNoteBody n (List.finRange 16) m).1
  unfold processMessage at h
  split_ifs at h
  · simp only [Option.some.injEq] at h
    rw [← h, hr]
  · exact pressNote_midiInput m m2 _ _ h
  · simp only [Option.some.injEq] at h
    rw [← h, hr]
  · simp only [Option.some.injEq] at h
    rw [h]

end MIDITriggerToCVInterface

/-! ## Pressing and releasing notes -/

open MIDITriggerToCVInterface MidiTrigChoice

/-- C1: with no channel in learn mode (`learningId = -1`), `pressNote(n, v)` returns,
and it changes exactly the channels mapped to `n`: every channel `i` with
`learnedNotes[i] = n` ends with `gates[i] = true`, `gateTimes[i] = 1e-3f` and
`velocities[i] = v`; every other channel keeps its gate, hold time and velocity;
`learnedNotes` and all remaining fields are unchanged. -/
theorem pressNote_opens_mapped_channels (m : MIDITriggerToCVInterface) (note vel : Nat)
    (hlearn : m.learningId = -1) :
    ∃ m2, pressNote m note vel = some m2 ∧
      (∀ i : Fin 16, m.learnedNotes i = note →
        m2.gates i = true ∧ m2.gateTimes i = holdEpsilon ∧ m2.velocities i = vel) ∧
      (∀ i : Fin 16, m.learnedNotes i ≠ note →
        m2.gates i = m.gates i ∧ m2.gateTimes i = m.gateTimes i ∧
        m2.velocities i = m.velocities i) ∧
      m2.learnedNotes = m.learnedNotes ∧ m2.learningId = m.learningId ∧
      m2.velocity = m.velocity ∧ m2.midiInput = m.midiInput ∧ m2.outputs = m.outputs := by
  have hneg : m.learningId < 0 := by rw [hlearn]; decide
  obtain ⟨h1, h2, h3, h4, h5, h6⟩ := foldl_pressNoteBody note vel (List.finRange 16) m
  refine ⟨_, pressNote_of_not_learning m note vel hneg, ?_, ?_, h3, h2, h4, h1, h5⟩
  · intro i hi
    obtain ⟨g1, g2, g3⟩ := h6 i
    rw [g1, g2, g3]
    simp [hi, List.mem_finRange]
  · intro i hi
    obtain ⟨g1, g2, g3⟩ := h6 i
    rw [g1, g2, g3]
    simp [hi]

/-- C1 at a module whose channels 0 and 1 are both mapped to note 60. -/
theorem pressNote_opens_mapped_channels_witness :
    sharedNoteModule.learningId = -1 ∧
    ∃ m2, pressNote sharedNoteModule 60 100 = some m2 ∧
      (∀ i : Fin 16, sharedNoteModule.learnedNotes i = 60 →
        m2.gates i = true ∧ m2.gateTimes i = holdEpsilon ∧ m2.velocities i = 100) ∧
      (∀ i : Fin 16, sharedNoteModule.learnedNotes i ≠ 60 →
        m2.gates i = sharedNoteModule.gates i ∧ m2.gateTimes i = sharedNoteModule.gateTimes i ∧
        m2.velocities i = sharedNoteModule.velocities i) ∧
      m2.learnedNotes = sharedNoteModule.learnedNotes ∧
      m2.learningId = sharedNoteModule.learningId ∧
      m2.velocity = sharedNoteModule.velocity ∧ m2.midiInput = sharedNoteModule.midiInput ∧
      m2.outputs = sharedNoteModule.outputs :=
  ⟨rfl, pressNote_opens_mapped_channels sharedNoteModule 60 100 rfl⟩

/-- C2: `releaseNote(n)` closes the gate of every channel mapped to `n` and changes
nothing else: the gates of the other channels, all hold times, velocities and
mapped notes, the learn cursor, the velocity flag, the queue and the outputs are
unchanged; with no channel mapped to `n` the state is returned as it was. -/
theorem releaseNote_closes_mapped_channels (m : MIDITriggerToCVInterface) (note : Nat) :
    (∀ i : Fin 16, m.learnedNotes i = note → (releaseNote m note).gates i = false) ∧
    (∀ i : Fin 16, m.learnedNotes i ≠ note → (releaseNote m note).gates i = m.gates i) ∧
    (releaseNote m note).gateTimes = m.gateTimes ∧
    (releaseNote m note).velocities = m.velocities ∧
    (releaseNote m note).learnedNotes = m.learnedNotes ∧
    (releaseNote m note).learningId = m.learningId ∧
    (releaseNote m note).velocity = m.velocity ∧
    (releaseNote m note).midiInput = m.midiInput ∧
    (releaseNote m note).outputs = m.outputs ∧
    ((∀ i : Fin 16, m.learnedNotes i ≠ note) → releaseNote m note = m) := by
  unfold releaseNote
  obtain ⟨h1, h2, h3, h4, h5, h6, h7, h8⟩ := foldl_releaseNoteBody note (List.finRange 16) m
  have hne : ∀ i : Fin 16, m.learnedNotes i ≠ note →
      ((List.finRange 16).foldl (releaseNoteBody note) m).gates i = m.gates i := by
    intro i hi
    have := h8 i
    simp only [hi, and_false, if_false] at this
    exact this
  refine ⟨?_, hne, h6, h7, h3, h2, h4, h1, h5, ?_⟩
  · intro i hi
    have := h8 i
    simp only [hi, List.mem_finRange, and_self, if_true] at this
    exact this
  · intro hall
    exact MIDITriggerToCVInterface.ext h1 (funext fun i => hne i (hall i)) h6 h7 h2 h3 h4 h5

/-- C2 at a fresh module: releasing note 36 closes channel 0, and releasing note 99,
which no channel is mapped to, returns the state as it was. -/
theorem releaseNote_closes_mapped_channels_witness :
    (freshModule.learnedNotes 0 = 36 ∧ (releaseNote freshModule 36).gates 0 = false) ∧
    ((∀ i : Fin 16, freshModule.learnedNotes i ≠ 99) ∧ releaseNote freshModule 99 = freshModule) :=
  ⟨⟨by decide, (releaseNote_closes_mapped_channels freshModule 36).1 0 (by decide)⟩,
    ⟨by decide, (releaseNote_closes_mapped_channels freshModule 99).2.2.2.2.2.2.2.2.2 (by decide)⟩⟩

/-! ## Learn mode -/

/-- C3: with channel `K` the learning channel (`learningId = K`, the value `onSelect`
stores), `pressNote(N, v)` returns, after it `learnedNotes[K] = N` and the learn
cursor is cleared (`learningId = -1`), and the mapped note of every other
channel is unchanged. -/
theorem pressNote_learns_note (m : MIDITriggerToCVInterface) (K : Fin 16) (note vel : Nat)
    (hK : m.learningId = (K.val : Int)) :
    ∃ m2, pressNote m note vel = some m2 ∧
      m2.learnedNotes K = note ∧ m2.learningId = -1 ∧
      ∀ j : Fin 16, j ≠ K → m2.learnedNotes j = m.learnedNotes j := by
  obtain ⟨_, h2, h3, _, _, _⟩ := foldl_pressNoteBody note vel (List.finRange 16)
    { m with learnedNotes := Function.update m.learnedNotes K note, learningId := -1 }
  refine ⟨_, pressNote_of_learning m K note vel hK, ?_, h2, ?_⟩
  · rw [h3]
    simp
  · intro j hj
    rw [h3]
    simp [hj]

/-- C3 at a fresh module whose channel 3 was selected by `onSelect`: a press of
note 72 maps channel 3 to note 72. -/
theorem pressNote_learns_note_witness :
    (onSelect freshModule 3).learningId = ((3 : Fin 16).val : Int) ∧
    ∃ m2, pressNote (onSelect freshModule 3) 72 100 = some m2 ∧
      m2.learnedNotes 3 = 72 ∧ m2.learningId = -1 ∧
      ∀ j : Fin 16, j ≠ 3 → m2.learnedNotes j = (onSelect freshModule 3).learnedNotes j :=
  ⟨rfl, pressNote_learns_note (onSelect freshModule 3) 3 72 100 rfl⟩

/-- C4, as stated, fails: at a fresh module whose channel 3 is learning and has its
gate closed, `pressNote(72, 100)` teaches note 72 to channel 3 and opens the gate
of channel 3 in the same call, with hold time `1e-3f` and velocity 100. -/
theorem pressNote_learn_consumes_counterexample :
    learningModule.learningId = 3 ∧ learningModule.gates 3 = false ∧
    learningModule.gateTimes 3 = 0 ∧ learningModule.velocities 3 = 0 ∧
    ∃ m2, pressNote learningModule 72 100 = some m2 ∧
      m2.learnedNotes 3 = 72 ∧
      m2.gates 3 = true ∧ m2.gateTimes 3 ≠ learningModule.gateTimes 3 ∧
      m2.velocities 3 ≠ learningModule.velocities 3 := by
  obtain ⟨_, _, h3, _, _, h6⟩ := foldl_pressNoteBody 72 100 (List.finRange 16)
    { learningModule with
      learnedNotes := Function.update learningModule.learnedNotes 3 72, learningId := -1 }
  obtain ⟨g1, g2, g3⟩ := h6 3
  have hg : learningModule.gateTimes 3 = 0 := by decide
  have hv : learningModule.velocities 3 = 0 := by decide
  refine ⟨rfl, by decide, hg, hv, _, pressNote_of_learning learningModule 3 72 100 rfl,
    ?_, ?_, ?_, ?_⟩
  · rw [h3]; simp
  · rw [g1]; simp [List.mem_finRange]
  · rw [g2, hg]; simpa [List.mem_finRange] using holdEpsilon_pos.ne'
  · rw [g3, hv]; simp [List.mem_finRange]

/-- C4, amended: with channel `K` the learning channel, the call `pressNote(N, v)`
that teaches `N` to channel `K` also triggers channel `K`: after the call
`learnedNotes[K] = N`, `gates[K] = true`, `gateTimes[K] = 1e-3f` and
`velocities[K] = v`, whatever the gate of `K` was before. -/
theorem pressNote_learn_triggers_learned_channel (m : MIDITriggerToCVInterface) (K : Fin 16)
    (note vel : Nat) (hK : m.learningId = (K.val : Int)) :
    ∃ m2, pressNote m note vel = some m2 ∧ m2.learnedNotes K = note ∧
      m2.gates K = true ∧ m2.gateTimes K = holdEpsilon ∧ m2.velocities K = vel := by
  obtain ⟨_, _, h3, _, _, h6⟩ := foldl_pressNoteBody note vel (List.finRange 16)
    { m with learnedNotes := Function.update m.learnedNotes K note, learningId := -1 }
  obtain ⟨g1, g2, g3⟩ := h6 K
  refine ⟨_, pressNote_of_learning m K note vel hK, ?_, ?_, ?_, ?_⟩
  · rw [h3]; simp
  · rw [g1]; simp [List.mem_finRange]
  · rw [g2]; simp [List.mem_finRange]
  · rw [g3]; simp [List.mem_finRange]

/-- The amended C4 at a fresh module whose channel 3 is learning, gate closed. -/
theorem pressNote_learn_triggers_learned_channel_witness :
    (learningModule.learningId = ((3 : Fin 16).val : Int) ∧ learningModule.gates 3 = false) ∧
    ∃ m2, pressNote learningModule 72 100 = some m2 ∧ m2.learnedNotes 3 = 72 ∧
      m2.gates 3 = true ∧ m2.gateTimes 3 = holdEpsilon ∧ m2.velocities 3 = 100 :=
  ⟨⟨rfl, by decide⟩, pressNote_learn_triggers_learned_channel learningModule 3 72 100 rfl⟩

/-! ## Message dispatch -/

/-- C5: `processMessage(m)` is `pressNote(m.note, m.value)` for status `0x9` with
value `> 0`, is `releaseNote(m.note)` for status `0x9` with value `0` and for
status `0x8`, and leaves the state unchanged for every other status. -/
theorem processMessage_dispatch (m : MIDITriggerToCVInterface) (msg : midi.Message) :
    (msg.getStatus = 0x9 → msg.getValue > 0 →
      processMessage m msg = pressNote m msg.getNote msg.getValue) ∧
    (msg.getStatus = 0x9 → msg.getValue = 0 →
      processMessage m msg = some (releaseNote m msg.getNote)) ∧
    (msg.getStatus = 0x8 → processMessage m msg = some (releaseNote m msg.getNote)) ∧
    (msg.getStatus ≠ 0x9 → msg.getStatus ≠ 0x8 → processMessage m msg = some m) := by
  refine ⟨?_, ?_, ?_, ?_⟩
  · intro hs hv
    simp [processMessage, hs, hv]
  · intro hs hv
    simp [processMessage, hs, hv]
  · intro hs
    simp [processMessage, hs]
  · intro h9 h8
    simp [processMessage, h9, h8]

/-- C5 at a fresh module, for a note-on with velocity 100, a note-on with velocity 0,
a note-off, and a control change (status `0xb`). -/
theorem processMessage_dispatch_witness :
    processMessage freshModule ⟨0x9, 36, 100⟩ = pressNote freshModule 36 100 ∧
    processMessage freshModule ⟨0x9, 36, 0⟩ = some (releaseNote freshModule 36) ∧
    processMessage freshModule ⟨0x8, 36, 64⟩ = some (releaseNote freshModule 36) ∧
    processMessage freshModule ⟨0xb, 7, 127⟩ = some freshModule :=
  ⟨(processMessage_dispatch freshModule ⟨0x9, 36, 100⟩).1 rfl (by decide),
    (processMessage_dispatch freshModule ⟨0x9, 36, 0⟩).2.1 rfl rfl,
    (processMessage_dispatch freshModule ⟨0x8, 36, 64⟩).2.2.1 rfl,
    (processMessage_dispatch freshModule ⟨0xb, 7, 127⟩).2.2.2 (by decide) (by decide)⟩

/-! ## Output voltages -/

/-- C6: `step` returns whenever its drain loop does, and with `m1` the state the
output pass sees (the input state itself when nothing is pending), the voltage
written to output `i` is `10` when `gateTimes[i] > 0` with the velocity flag off,
`10 * velocities[i] / 127` when `gateTimes[i] > 0` with the flag on (`0` for
velocity 0, `10` for velocity 127), and `0` when `gateTimes[i] <= 0`. -/
theorem step_output_voltage (floatSub : ℚ → ℚ → ℚ) (m m1 : MIDITriggerToCVInterface) (dt : ℚ)
    (hdrain : drain m.midiInput.queue m = some m1) :
    (m.midiInput.queue = [] → m1 = m) ∧
    ∃ m2, step floatSub m dt = some m2 ∧ ∀ i : Fin 16,
      (0 < m1.gateTimes i → m1.velocity = false → m2.outputs i = 10) ∧
      (0 < m1.gateTimes i → m1.velocity = true →
        m2.outputs i = 10 * (m1.velocities i : ℚ) / 127) ∧
      (0 < m1.gateTimes i → m1.velocity = true → m1.velocities i = 0 → m2.outputs i = 0) ∧
      (0 < m1.gateTimes i → m1.velocity = true → m1.velocities i = 127 → m2.outputs i = 10) ∧
      (m1.gateTimes i ≤ 0 → m2.outputs i = 0) := by
  refine ⟨?_, stepOutputs floatSub dt m1, ?_, fun i => ?_⟩
  · intro hq
    rw [hq] at hdrain
    simp only [drain, Option.some.injEq] at hdrain
    rw [← hdrain, ← hq]
  · simp only [MIDITriggerToCVInterface.step, hdrain, Option.map_some']
  · have ho := ((stepOutputs_spec floatSub dt m1).2.2.2.2.2.2 i).1
    refine ⟨?_, ?_, ?_, ?_, ?_⟩
    · intro hpos hv
      rw [ho, if_pos hpos]
      simp [onLevel, hv]
    · intro hpos hv
      rw [ho, if_pos hpos]
      simp only [onLevel, hv, if_true, rescale]
      ring
    · intro hpos hv h0
      rw [ho, if_pos hpos]
      simp [onLevel, hv, rescale, h0]
    · intro hpos hv h127
      rw [ho, if_pos hpos]
      simp only [onLevel, hv, if_true, rescale, h127]
      norm_num
    · intro hle
      rw [ho, if_neg (not_lt.mpr hle)]

/-- C6 at a fresh module in velocity mode with a pending note-on of note 36. -/
theorem step_output_voltage_witness :
    drain pendingPressModule.midiInput.queue pendingPressModule = some drainedPressModule ∧
    (pendingPressModule.midiInput.queue = [] → drainedPressModule = pendingPressModule) ∧
    ∃ m2, step exactSub pendingPressModule (1 / 44100) = some m2 ∧ ∀ i : Fin 16,
      (0 < drainedPressModule.gateTimes i → drainedPressModule.velocity = false →
        m2.outputs i = 10) ∧
      (0 < drainedPressModule.gateTimes i → drainedPressModule.velocity = true →
        m2.outputs i = 10 * (drainedPressModule.velocities i : ℚ) / 127) ∧
      (0 < drainedPressModule.gateTimes i → drainedPressModule.velocity = true →
        drainedPressModule.velocities i = 0 → m2.outputs i = 0) ∧
      (0 < drainedPressModule.gateTimes i → drainedPressModule.velocity = true →
        drainedPressModule.velocities i = 127 → m2.outputs i = 10) ∧
      (drainedPressModule.gateTimes i ≤ 0 → m2.outputs i = 0) :=
  ⟨rfl, step_output_voltage exactSub pendingPressModule drainedPressModule (1 / 44100) rfl⟩

/-- C8: after `onReset()`, from any state, every channel `i` has
`learnedNotes[i] = 36 + i`, `gates[i] = false` and `gateTimes[i] = 0`, and no
channel is in learn mode (`learningId = -1`); the same holds for a module
constructed over any memory contents. -/
theorem onReset_defaults (m : MIDITriggerToCVInterface) :
    ((∀ i : Fin 16, (onReset m).learnedNotes i = 36 + i.val ∧
        (onReset m).gates i = false ∧ (onReset m).gateTimes i = 0) ∧
      (onReset m).learningId = -1) ∧
    ((∀ i : Fin 16, (construct m).learnedNotes i = 36 + i.val ∧
        (construct m).gates i = false ∧ (construct m).gateTimes i = 0) ∧
      (construct m).learningId = -1) := by
  have key : ∀ s : MIDITriggerToCVInterface,
      (∀ i : Fin 16, (onReset s).learnedNotes i = 36 + i.val ∧
        (onReset s).gates i = false ∧ (onReset s).gateTimes i = 0) ∧
      (onReset s).learningId = -1 := by
    intro s
    refine ⟨fun i => ?_, rfl⟩
    obtain ⟨g1, g2, g3⟩ := (foldl_onResetBody (List.finRange 16) s).2.2.2.2.2 i
    have hi : (i.val + 36) % 256 = 36 + i.val := by
      have := i.isLt
      omega
    refine ⟨?_, ?_, ?_⟩
    · show ((List.finRange 16).foldl onResetBody s).learnedNotes i = 36 + i.val
      rw [g3, if_pos (List.mem_finRange i), hi]
    · show ((List.finRange 16).foldl onResetBody s).gates i = false
      rw [g1, if_pos (List.mem_finRange i)]
    · show ((List.finRange 16).foldl onResetBody s).gateTimes i = 0
      rw [g2, if_pos (List.mem_finRange i)]
  exact ⟨key m, key _⟩

/-! ## Saving and loading -/

/-- C9: for every module `m` whose mapped notes are bytes and every module `m0`,
loading into `m0` the record that `dataToJson` produces for `m` yields a state
whose `learnedNotes` equals that of `m` entry for entry and whose velocity flag
equals that of `m`, whatever the MIDI input serialises to. -/
theorem dataFromJson_dataToJson (midiToJson : midi.InputQueue → Json)
    (midiFromJson : midi.InputQueue → Json → midi.InputQueue)
    (m m0 : MIDITriggerToCVInterface) (hbyte : ∀ i : Fin 16, m.learnedNotes i < 256) :
    (∀ i : Fin 16,
      (dataFromJson midiFromJson m0 (dataToJson midiToJson m)).learnedNotes i
        = m.learnedNotes i) ∧
    (dataFromJson midiFromJson m0 (dataToJson midiToJson m)).velocity = m.velocity := by
  have hnotes : json_object_get (dataToJson midiToJson m) "notes" = some (notesToJson m) := by
    rw [dataToJson_eq]
    simp [json_object_get, List.find?]
  have hvel : json_object_get (dataToJson midiToJson m) "velocity"
      = some (Json.bool m.velocity) := by
    rw [dataToJson_eq]
    simp [json_object_get, List.find?]
  refine ⟨fun i => ?_, ?_⟩
  · have hget : json_array_get (notesToJson m) i.val
        = some (Json.integer (m.learnedNotes i)) := by
      rw [notesToJson_eq]
      simp [json_array_get]
    rw [dataFromJson_learnedNotes, hnotes]
    simp only [hget, json_integer_value]
    have hlt : (m.learnedNotes i : Int) < 256 := by exact_mod_cast hbyte i
    rw [Int.emod_eq_of_lt (Int.natCast_nonneg _) hlt]
    exact Int.toNat_natCast _
  · rw [dataFromJson_velocity, hvel]
    rfl

/-- C9 at a module with a non-default mapping and the velocity flag set, loaded into a
fresh module. -/
theorem dataFromJson_dataToJson_witness :
    (∀ i : Fin 16, remappedModule.learnedNotes i < 256) ∧
    (∀ i : Fin 16,
      (dataFromJson (fun q _ => q) freshModule
          (dataToJson (fun _ => Json.object []) remappedModule)).learnedNotes i
        = remappedModule.learnedNotes i) ∧
    (dataFromJson (fun q _ => q) freshModule
        (dataToJson (fun _ => Json.object []) remappedModule)).velocity
      = remappedModule.velocity :=
  ⟨by decide,
    dataFromJson_dataToJson (fun _ => Json.object []) (fun q _ => q) remappedModule freshModule
      (by decide)⟩

/-- C10: `dataFromJson` keeps `learnedNotes` as it is when the record has no "notes"
key, keeps `learnedNotes[i]` for every index `i` at or beyond the length of a
"notes" array, and keeps the velocity flag when the record has no "velocity" key,
each whatever the other keys of the record are. -/
theorem dataFromJson_absent_fields (midiFromJson : midi.InputQueue → Json → midi.InputQueue)
    (m : MIDITriggerToCVInterface) (rootJ : Json) :
    (json_object_get rootJ "notes" = none →
      (dataFromJson midiFromJson m rootJ).learnedNotes = m.learnedNotes) ∧
    (∀ items : List Json, json_object_get rootJ "notes" = some (Json.array items) →
      ∀ i : Fin 16, items.length ≤ i.val →
        (dataFromJson midiFromJson m rootJ).learnedNotes i = m.learnedNotes i) ∧
    (json_object_get rootJ "velocity" = none →
      (dataFromJson midiFromJson m rootJ).velocity = m.velocity) := by
  refine ⟨?_, ?_, ?_⟩
  · intro hn
    funext i
    rw [dataFromJson_learnedNotes, hn]
  · intro items hn i hi
    have hget : json_array_get (Json.array items) i.val = none := by
      simp only [json_array_get]
      exact List.get?_eq_none.mpr hi
    rw [dataFromJson_learnedNotes, hn]
    simp only [hget]
  · intro hv
    rw [dataFromJson_velocity, hv]

/-- C10 at a module with a non-default mapping: a record without "notes" keeps the
mapping, a record with two notes and no "velocity" keeps the entries from index 2
on and the flag. -/
theorem dataFromJson_absent_fields_witness :
    (json_object_get velocityOnlyRecord "notes" = none ∧
      (dataFromJson (fun q _ => q) remappedModule velocityOnlyRecord).learnedNotes
        = remappedModule.learnedNotes) ∧
    (json_object_get shortNotesRecord "notes"
        = some (Json.array [Json.integer 60, Json.integer 61]) ∧
      (dataFromJson (fun q _ => q) remappedModule shortNotesRecord).learnedNotes 2
        = remappedModule.learnedNotes 2) ∧
    (json_object_get shortNotesRecord "velocity" = none ∧
      (dataFromJson (fun q _ => q) remappedModule shortNotesRecord).velocity
        = remappedModule.velocity) :=
  ⟨⟨rfl,
      (dataFromJson_absent_fields (fun q _ => q) remappedModule velocityOnlyRecord).1 rfl⟩,
    ⟨rfl,
      (dataFromJson_absent_fields (fun q _ => q) remappedModule shortNotesRecord).2.1
        [Json.integer 60, Json.integer 61] rfl 2 (by decide)⟩,
    ⟨rfl,
      (dataFromJson_absent_fields (fun q _ => q) remappedModule shortNotesRecord).2.2 rfl⟩⟩

/-- C11, as stated, fails: loading into a fresh module a record whose "notes" entry 0 is
the integer 300, entry 1 a string and entry 2 the integer -1 does not leave these
channels at their mapped notes 36, 37 and 38: they become 44 (300 mod 256), 0
and 255. -/
theorem dataFromJson_ignores_malformed_counterexample :
    json_object_get badNotesRecord "notes"
      = some (Json.array [Json.integer 300, Json.string "x", Json.integer (-1)]) ∧
    (freshModule.learnedNotes 0 = 36 ∧
      (dataFromJson (fun q _ => q) freshModule badNotesRecord).learnedNotes 0 = 44) ∧
    (freshModule.learnedNotes 1 = 37 ∧
      (dataFromJson (fun q _ => q) freshModule badNotesRecord).learnedNotes 1 = 0) ∧
    (freshModule.learnedNotes 2 = 38 ∧
      (dataFromJson (fun q _ => q) freshModule badNotesRecord).learnedNotes 2 = 255) := by
  refine ⟨rfl, ⟨by decide, ?_⟩, ⟨by decide, ?_⟩, ⟨by decide, ?_⟩⟩
  · rw [dataFromJson_learnedNotes]; rfl
  · rw [dataFromJson_learnedNotes]; rfl
  · rw [dataFromJson_learnedNotes]; rfl

/-- C11, amended: a "notes" entry that is present is never ignored. For every module
state, every channel `i` and every record whose "notes" value has an entry `i`,
`dataFromJson` sets `learnedNotes[i]` to `json_integer_value` of the entry
converted to `uint8_t`: `n mod 256` for a JSON integer `n`, so an integer in
`0..255` is stored as it is and one outside is wrapped, and `0` for a value that
is not a JSON integer. -/
theorem dataFromJson_overwrites_present_entry
    (midiFromJson : midi.InputQueue → Json → midi.InputQueue)
    (m : MIDITriggerToCVInterface) (rootJ notesJ noteJ : Json) (i : Fin 16)
    (hnotes : json_object_get rootJ "notes" = some notesJ)
    (hentry : json_array_get notesJ i.val = some noteJ) :
    (dataFromJson midiFromJson m rootJ).learnedNotes i
      = (json_integer_value noteJ % 256).toNat ∧
    (∀ n : Int, noteJ = Json.integer n →
      (dataFromJson midiFromJson m rootJ).learnedNotes i = (n % 256).toNat) ∧
    (∀ n : Nat, n < 256 → noteJ = Json.integer n →
      (dataFromJson midiFromJson m rootJ).learnedNotes i = n) ∧
    ((∀ n : Int, noteJ ≠ Json.integer n) →
      (dataFromJson midiFromJson m rootJ).learnedNotes i = 0) := by
  have key : (dataFromJson midiFromJson m rootJ).learnedNotes i
      = (json_integer_value noteJ % 256).toNat := by
    rw [dataFromJson_learnedNotes, hnotes]
    simp only [hentry]
  refine ⟨key, ?_, ?_, ?_⟩
  · intro n hn
    rw [key, hn]
    rfl
  · intro n hlt hn
    rw [key, hn]
    simp only [json_integer_value]
    have hlt2 : (n : Int) < 256 := by exact_mod_cast hlt
    rw [Int.emod_eq_of_lt (Int.natCast_nonneg _) hlt2]
    exact Int.toNat_natCast _
  · intro hn
    rw [key]
    cases noteJ with
    | integer n => exact absurd rfl (hn n)
    | null => rfl
    | bool b => rfl
    | real q => rfl
    | string t => rfl
    | array items => rfl
    | object fields => rfl

/-- The amended C11 at a fresh module and the record with entries 300, "x" and -1. -/
theorem dataFromJson_overwrites_present_entry_witness :
    (json_object_get badNotesRecord "notes"
        = some (Json.array [Json.integer 300, Json.string "x", Json.integer (-1)]) ∧
      json_array_get (Json.array [Json.integer 300, Json.string "x", Json.integer (-1)])
          (0 : Fin 16).val
        = some (Json.integer 300)) ∧
    (dataFromJson (fun q _ => q) freshModule badNotesRecord).learnedNotes 0
      = (json_integer_value (Json.integer 300) % 256).toNat :=
  ⟨⟨rfl, rfl⟩,
    (dataFromJson_overwrites_present_entry (fun q _ => q) freshModule badNotesRecord
      (Json.array [Json.integer 300, Json.string "x", Json.integer (-1)]) (Json.integer 300) 0
      rfl rfl).1⟩

/-! ## Additions of `float` that do not round -/

namespace Float32

/-- Halving `a` as often as `dropBits` does is enough no later than at any `j` with
`a / 2^j < 2^24`. -/
theorem dropBits_le (fuel a j : Nat) (h : a / 2 ^ j < 2 ^ 24) : dropBits fuel a ≤ j := by
  induction fuel generalizing a j with
  | zero => exact Nat.zero_le _
  | succ fuel ih =>
    unfold dropBits
    split_ifs with hlt
    · exact Nat.zero_le _
    · cases j with
      | zero =>
        simp only [pow_zero, Nat.div_one] at h
        exact absurd h hlt
      | succ j =>
        have h2 : a / 2 / 2 ^ j < 2 ^ 24 := by
          rw [Nat.div_div_eq_div_mul, ← pow_succ']
          exact h
        exact Nat.succ_le_succ (ih (a / 2) j h2)

/-- A whole number below `2^24`, in units of `2^-149`, is a `float`: rounding keeps it. -/
theorem roundNat_mul (n : Nat) (hn : n < 2 ^ 24) : roundNat (n * 2 ^ 149) = n * 2 ^ 149 := by
  have he : dropBits (n * 2 ^ 149) (n * 2 ^ 149) ≤ 149 := by
    apply dropBits_le
    rw [Nat.mul_div_cancel _ (by positivity)]
    exact hn
  have hdvd : 2 ^ dropBits (n * 2 ^ 149) (n * 2 ^ 149) ∣ n * 2 ^ 149 :=
    Dvd.dvd.mul_left (pow_dvd_pow 2 he) n
  have hr : n * 2 ^ 149 % 2 ^ dropBits (n * 2 ^ 149) (n * 2 ^ 149) = 0 :=
    Nat.mod_eq_zero_of_dvd hdvd
  have hhalf : dropBits (n * 2 ^ 149) (n * 2 ^ 149) ≠ 0 →
      2 ^ dropBits (n * 2 ^ 149) (n * 2 ^ 149) / 2 ≠ 0 := by
    intro h0
    obtain ⟨k, hk⟩ := Nat.exists_eq_succ_of_ne_zero h0
    rw [hk, pow_succ, Nat.mul_div_cancel _ (by decide)]
    exact pow_ne_zero _ (by decide)
  have hcond : ¬ (n * 2 ^ 149 % 2 ^ dropBits (n * 2 ^ 149) (n * 2 ^ 149)
        > 2 ^ dropBits (n * 2 ^ 149) (n * 2 ^ 149) / 2 ∨
      (n * 2 ^ 149 % 2 ^ dropBits (n * 2 ^ 149) (n * 2 ^ 149)
          = 2 ^ dropBits (n * 2 ^ 149) (n * 2 ^ 149) / 2 ∧
        dropBits (n * 2 ^ 149) (n * 2 ^ 149) ≠ 0 ∧
        n * 2 ^ 149 / 2 ^ dropBits (n * 2 ^ 149) (n * 2 ^ 149) % 2 = 1)) := by
    rw [hr]
    intro hor
    rcases hor with hgt | ⟨heq, hne, _⟩
    · exact absurd hgt (Nat.not_lt_zero _)
    · exact hhalf hne heq.symm
  unfold roundNat
  simp only [if_neg hcond]
  exact Nat.div_mul_cancel hdvd

/-- The sum of two whole numbers is exact while it stays below `2^24`. -/
theorem add_ofNat (a b : Nat) (h : a + b < 2 ^ 24) :
    (ofNat a).add (ofNat b) = ofNat (a + b) := by
  have hsum : (((a * 2 ^ 149 : Nat) : Int) + ((b * 2 ^ 149 : Nat) : Int))
      = (((a + b) * 2 ^ 149 : Nat) : Int) := by
    rw [← Nat.cast_add, Nat.add_mul]
  have hnonneg : ¬ ((((a + b) * 2 ^ 149 : Nat) : Int) < 0) :=
    not_lt.mpr (Int.natCast_nonneg _)
  have hsmall : ¬ ((a + b) * 2 ^ 149 ≥ 2 ^ 128 * 2 ^ 149) := by
    rw [not_le]
    apply Nat.mul_lt_mul_of_pos_right _ (by positivity)
    calc a + b < 2 ^ 24 := h
      _ ≤ 2 ^ 128 := Nat.pow_le_pow_right (by decide) (by decide)
  show round (((a * 2 ^ 149 : Nat) : Int) + ((b * 2 ^ 149 : Nat) : Int)) = ofNat (a + b)
  rw [hsum]
  unfold round
  rw [Int.natAbs_ofNat, roundNat_mul (a + b) h, if_neg hsmall, if_neg hnonneg]
  rfl

end Float32

/-! ## The vertical list -/

namespace ListWidget

/-- The running height of a list, child by child. -/
theorem runningHeight_cons (y0 : Float32) (c : Widget) (cs : List Widget) :
    runningHeight y0 (c :: cs)
      = runningHeight (if c.visible then y0.add c.box.size.y else y0) cs :=
  rfl

/-- The box of the container after the loop of `List::step`: only the height has
changed, to the running height of the children from the height before. -/
theorem stepLoop_box (b : math.Rect) (cs : List Widget) :
    (stepLoop b cs).1
      = { pos := b.pos, size := { x := b.size.x, y := runningHeight b.size.y cs } } := by
  induction cs generalizing b with
  | nil => rfl
  | cons c cs ih =>
    rw [runningHeight_cons]
    by_cases hv : c.visible = true
    · simp only [stepLoop, hv, Bool.not_true, Bool.false_eq_true, if_false, if_true, ih]
    · simp only [Bool.not_eq_true] at hv
      simp only [stepLoop, hv, Bool.not_false, if_true, ih, Bool.false_eq_true, if_false]

/-- The children after the loop of `List::step`, index by index: the child at index
`k` keeps its visibility; an invisible child is unchanged; a visible child is
moved to `(0, y)` with `y` the running height of the children before it from the
height of the container so far, takes the width of the container and keeps its
height. -/
theorem stepLoop_children (b : math.Rect) (cs : List Widget) (k : Nat) (c : Widget)
    (hk : cs.get? k = some c) :
    ∃ c2, (stepLoop b cs).2.get? k = some c2 ∧ c2.visible = c.visible ∧
      (c.visible = false → c2 = c) ∧
      (c.visible = true →
        c2.box.pos = { x := Float32.finite 0, y := runningHeight b.size.y (cs.take k) } ∧
        c2.box.size.x = b.size.x ∧ c2.box.size.y = c.box.size.y) := by
  induction cs generalizing b k with
  | nil => simp at hk
  | cons d cs ih =>
    cases k with
    | zero =>
      simp only [List.get?_cons_zero, Option.some.injEq] at hk
      subst hk
      by_cases hv : d.visible = true
      · refine ⟨{ box := { pos := { x := Float32.finite 0, y := b.size.y },
                            size := { x := b.size.x, y := d.box.size.y } },
                   visible := d.visible }, ?_, rfl, ?_, ?_⟩
        · simp only [stepLoop, hv, Bool.not_true, Bool.false_eq_true, if_false,
            List.get?_cons_zero]
        · intro hf; rw [hv] at hf; exact absurd hf (by decide)
        · intro _
          exact ⟨rfl, rfl, rfl⟩
      · simp only [Bool.not_eq_true] at hv
        refine ⟨d, by simp only [stepLoop, hv, Bool.not_false, if_true, List.get?_cons_zero],
          rfl, fun _ => rfl, ?_⟩
        intro ht; rw [hv] at ht; exact absurd ht (by decide)
    | succ k =>
      simp only [List.get?_cons_succ] at hk
      by_cases hv : d.visible = true
      · obtain ⟨c2, h1, h2, h3, h4⟩ := ih
          { b with size := { b.size with y := b.size.y.add d.box.size.y } } k hk
        refine ⟨c2, ?_, h2, h3, ?_⟩
        · simp only [stepLoop, hv, Bool.not_true, Bool.false_eq_true, if_false,
            List.get?_cons_succ]
          exact h1
        · intro ht
          obtain ⟨p1, p2, p3⟩ := h4 ht
          refine ⟨?_, p2, p3⟩
          rw [p1, List.take_succ_cons, runningHeight_cons, if_pos hv]
      · simp only [Bool.not_eq_true] at hv
        obtain ⟨c2, h1, h2, h3, h4⟩ := ih b k hk
        refine ⟨c2, ?_, h2, h3, ?_⟩
        · simp only [stepLoop, hv, Bool.not_false, if_true, List.get?_cons_succ]
          exact h1
        · intro ht
          obtain ⟨p1, p2, p3⟩ := h4 ht
          refine ⟨?_, p2, p3⟩
          rw [p1, List.take_succ_cons, runningHeight_cons, hv]
          rfl

/-- The loop of `List::step` keeps the number of children. -/
theorem stepLoop_length (b : math.Rect) (cs : List Widget) :
    (stepLoop b cs).2.length = cs.length := by
  induction cs generalizing b with
  | nil => simp [stepLoop]
  | cons c cs ih =>
    by_cases hv : c.visible = true
    · simp only [stepLoop, hv, Bool.not_true, Bool.false_eq_true, if_false, List.length_cons, ih]
    · simp only [Bool.not_eq_true] at hv
      simp only [stepLoop, hv, Bool.not_false, if_true, List.length_cons, ih]

/-- The loop of `List::step` keeps the visibility flags, in order. -/
theorem stepLoop_visible (b : math.Rect) (cs : List Widget) :
    (stepLoop b cs).2.map (fun c => c.visible) = cs.map (fun c => c.visible) := by
  induction cs generalizing b with
  | nil => simp [stepLoop]
  | cons c cs ih =>
    by_cases hv : c.visible = true
    · simp only [stepLoop, hv, Bool.not_true, Bool.false_eq_true, if_false, List.map_cons, ih]
    · simp only [Bool.not_eq_true] at hv
      simp only [stepLoop, hv, Bool.not_false, if_true, List.map_cons, ih]

/-- The running height with one more child: the child at index `k` is added, with the
addition of `float`, when it is visible. -/
theorem runningHeight_take_succ (y0 : Float32) (cs : List Widget) (k : Nat) (c : Widget)
    (hk : cs.get? k = some c) :
    runningHeight y0 (cs.take (k + 1))
      = (if c.visible then (runningHeight y0 (cs.take k)).add c.box.size.y
          else runningHeight y0 (cs.take k)) := by
  induction cs generalizing y0 k with
  | nil => simp at hk
  | cons d cs ih =>
    cases k with
    | zero =>
      simp only [List.get?_cons_zero, Option.some.injEq] at hk
      subst hk
      rfl
    | succ k =>
      simp only [List.get?_cons_succ] at hk
      rw [List.take_succ_cons, runningHeight_cons, ih _ k hk, List.take_succ_cons,
        runningHeight_cons]

/-- With heights that are whole numbers, `u c` for the child `c`, the running height
is the exact sum of the heights of the visible children as long as that sum is
below `2^24`. -/
theorem runningHeight_whole (u : Widget → Nat) (cs : List Widget) (n0 : Nat)
    (hu : ∀ c ∈ cs, c.visible = true → c.box.size.y = Float32.ofNat (u c))
    (hsum : n0 + ((cs.filter (fun c => c.visible)).map u).sum < 2 ^ 24) :
    runningHeight (Float32.ofNat n0) cs
      = Float32.ofNat (n0 + ((cs.filter (fun c => c.visible)).map u).sum) := by
  induction cs generalizing n0 with
  | nil => simp [runningHeight]
  | cons c cs ih =>
    have hrest : ∀ d ∈ cs, d.visible = true → d.box.size.y = Float32.ofNat (u d) :=
      fun d hd => hu d (List.mem_cons_of_mem _ hd)
    rw [runningHeight_cons]
    by_cases hv : c.visible = true
    · have hfil : (c :: cs).filter (fun c => c.visible) = c :: cs.filter (fun c => c.visible) := by
        simp [List.filter_cons, hv]
      rw [hfil, List.map_cons, List.sum_cons] at hsum ⊢
      rw [if_pos hv, hu c (List.mem_cons_self _ _) hv, Float32.add_ofNat n0 (u c) (by omega),
        ih (n0 + u c) hrest (by omega)]
      congr 1
      omega
    · have hfil : (c :: cs).filter (fun c => c.visible) = cs.filter (fun c => c.visible) := by
        simp [List.filter_cons, hv]
      rw [hfil] at hsum ⊢
      rw [if_neg hv]
      exact ih n0 hrest hsum

/-- Running the loop of `List::step` again over its own result changes nothing. -/
theorem stepLoop_idem (b : math.Rect) (cs : List Widget) :
    stepLoop b (stepLoop b cs).2 = stepLoop b cs := by
  induction cs generalizing b with
  | nil => simp [stepLoop]
  | cons c cs ih =>
    by_cases hv : c.visible = true
    · simp only [stepLoop, hv, Bool.not_true, Bool.false_eq_true, if_false, ih]
    · simp only [Bool.not_eq_true] at hv
      simp only [stepLoop, hv, Bool.not_false, if_true, ih]

/-- The height of the container after `List::step`. -/
theorem step_height (f : ListWidget → ListWidget) (w : ListWidget) :
    (step f w).box.size.y = runningHeight (Float32.finite 0) (f w).children := by
  simp only [step, stepLoop_box]

end ListWidget

/-- C12, as stated, fails: for three visible children of heights 16777216 (`2^24`), 1
and 1, `List::step()` leaves the height of the container at 16777216, which is
not the sum 16777218 of the heights: each of the two additions of 1 is rounded
back to 16777216. -/
theorem list_step_height_counterexample :
    tallList.children.map (fun c => (c.visible, c.box.size.y))
      = [(true, Float32.ofNat 16777216), (true, Float32.ofNat 1), (true, Float32.ofNat 1)] ∧
    (ListWidget.step id tallList).box.size.y = Float32.ofNat 16777216 ∧
    Float32.ofNat 16777216 ≠ Float32.ofNat (16777216 + 1 + 1) := by
  refine ⟨rfl, ?_, by decide⟩
  rw [ListWidget.step_height]
  set_option maxRecDepth 8000 in decide

/-- C12, amended: after `List::step()` the height of the container is the running sum
of the heights of the visible children, as `Widget::step()` left them: they are
added to `0.0` one after another in child order, each addition an addition of
`float`, which rounds. Invisible children add nothing and the height is `0` when
no child is visible. For heights that are whole numbers with a sum below `2^24`
it is that sum exactly, so it is 30 for children of heights 10, 0 (invisible)
and 20. -/
theorem list_step_height (widgetStep : ListWidget → ListWidget) (w : ListWidget) :
    (ListWidget.step widgetStep w).box.size.y
      = ListWidget.runningHeight (Float32.finite 0) (widgetStep w).children ∧
    (ListWidget.step id w).box.size.y
      = ListWidget.runningHeight (Float32.finite 0) w.children ∧
    ((∀ c ∈ (widgetStep w).children, c.visible = false) →
      (ListWidget.step widgetStep w).box.size.y = Float32.finite 0) ∧
    (∀ u : Widget → Nat,
      (∀ c ∈ (widgetStep w).children, c.visible = true →
        c.box.size.y = Float32.ofNat (u c)) →
      (((widgetStep w).children.filter (fun c => c.visible)).map u).sum < 2 ^ 24 →
      (ListWidget.step widgetStep w).box.size.y
        = Float32.ofNat
            ((((widgetStep w).children.filter (fun c => c.visible)).map u).sum)) ∧
    (∀ (b : math.Rect) (c1 c2 c3 : Widget),
      c1.visible = true → c1.box.size.y = Float32.ofNat 10 → c2.visible = false →
      c3.visible = true → c3.box.size.y = Float32.ofNat 20 →
      (ListWidget.step id { box := b, children := [c1, c2, c3] }).box.size.y
        = Float32.ofNat 30) := by
  refine ⟨ListWidget.step_height widgetStep w, ListWidget.step_height id w, ?_, ?_, ?_⟩
  · intro hall
    rw [ListWidget.step_height]
    generalize (widgetStep w).children = cs at hall
    induction cs with
    | nil => rfl
    | cons c cs ih =>
      rw [ListWidget.runningHeight_cons, hall c (List.mem_cons_self _ _)]
      exact ih (fun d hd => hall d (List.mem_cons_of_mem _ hd))
  · intro u hu hsum
    have h0 : Float32.finite 0 = Float32.ofNat 0 := by decide
    rw [ListWidget.step_height, h0,
      ListWidget.runningHeight_whole u _ 0 hu (by rw [Nat.zero_add]; exact hsum), Nat.zero_add]
  · intro b c1 c2 c3 h1 e1 h2 h3 e3
    rw [ListWidget.step_height]
    show ListWidget.runningHeight (Float32.finite 0) [c1, c2, c3] = Float32.ofNat 30
    simp only [ListWidget.runningHeight, List.foldl_cons, List.foldl_nil, h1, h2, h3, e1, e3,
      if_true, Bool.false_eq_true, if_false]
    set_option maxRecDepth 8000 in decide

/-- The amended C12 at the sample list, heights 10, 0 (invisible) and 20: the height
becomes 30. -/
theorem list_step_height_witness :
    (ListWidget.step id sampleList).box.size.y = Float32.ofNat 30 :=
  (list_step_height id sampleList).2.2.2.2 sampleList.box _ _ _ rfl rfl rfl rfl rfl

/-- C13, as stated, fails: for three visible children of heights 16777216 (`2^24`), 1
and 1, `List::step()` puts the second and the third child both at `y = 16777216`;
the third child is not at the sum 16777217 of the heights before it, and does
not start where the second one ends. -/
theorem list_step_positions_counterexample :
    tallList.children.map (fun c => (c.visible, c.box.size.y))
      = [(true, Float32.ofNat 16777216), (true, Float32.ofNat 1), (true, Float32.ofNat 1)] ∧
    (ListWidget.step id tallList).children.map (fun c => c.box.pos.y)
      = [Float32.ofNat 0, Float32.ofNat 16777216, Float32.ofNat 16777216] ∧
    Float32.ofNat 16777216 ≠ Float32.ofNat (16777216 + 1) := by
  refine ⟨rfl, ?_, by decide⟩
  set_option maxRecDepth 8000 in decide

/-- C13, amended: after `List::step()` each visible child is at `(0, y)`, with `y` the
running sum of the heights of the visible children before it in the child order:
they are added to `0.0` one after another, each addition an addition of `float`,
which rounds. Its width is the width of the container and its height is
unchanged, and the next visible child is at `y` plus its height, added as
`float`s. For heights that are whole numbers with a sum below `2^24`, `y` is the
sum of the heights of the visible children before it exactly. -/
theorem list_step_positions (widgetStep : ListWidget → ListWidget) (w : ListWidget)
    (k : Nat) (c : Widget) (hk : (widgetStep w).children.get? k = some c)
    (hv : c.visible = true) :
    ∃ c2, (ListWidget.step widgetStep w).children.get? k = some c2 ∧
      c2.visible = true ∧
      c2.box.pos
        = { x := Float32.finite 0,
            y := ListWidget.runningHeight (Float32.finite 0)
                  ((widgetStep w).children.take k) } ∧
      c2.box.size.x = (ListWidget.step widgetStep w).box.size.x ∧
      c2.box.size.x = (widgetStep w).box.size.x ∧
      c2.box.size.y = c.box.size.y ∧
      c2.box.pos.y.add c2.box.size.y
        = ListWidget.runningHeight (Float32.finite 0)
            ((widgetStep w).children.take (k + 1)) ∧
      (∀ u : Widget → Nat,
        (∀ d ∈ (widgetStep w).children.take k, d.visible = true →
          d.box.size.y = Float32.ofNat (u d)) →
        ((((widgetStep w).children.take k).filter (fun d => d.visible)).map u).sum < 2 ^ 24 →
        c2.box.pos.y
          = Float32.ofNat
              (((((widgetStep w).children.take k).filter (fun d => d.visible)).map u).sum)) := by
  obtain ⟨c2, h1, h2, _, h4⟩ := ListWidget.stepLoop_children
    { (widgetStep w).box with size := { (widgetStep w).box.size with y := Float32.finite 0 } }
    (widgetStep w).children k c hk
  obtain ⟨p1, p2, p3⟩ := h4 hv
  have hpos : c2.box.pos
      = { x := Float32.finite 0,
          y := ListWidget.runningHeight (Float32.finite 0)
                ((widgetStep w).children.take k) } := p1
  refine ⟨c2, h1, h2.trans hv, hpos, ?_, p2, p3, ?_, ?_⟩
  · rw [p2]
    simp only [ListWidget.step, ListWidget.stepLoop_box]
  · rw [hpos, p3, ListWidget.runningHeight_take_succ _ _ k c hk, if_pos hv]
  · intro u hu hsum
    have h0 : Float32.finite 0 = Float32.ofNat 0 := by decide
    rw [hpos]
    show ListWidget.runningHeight (Float32.finite 0) ((widgetStep w).children.take k) = _
    rw [h0, ListWidget.runningHeight_whole u _ 0 hu (by rw [Nat.zero_add]; exact hsum),
      Nat.zero_add]

/-- The amended C13 at the sample list: the third child, the second visible one, is
moved to `(0, y)` and takes the width of the list. -/
theorem list_step_positions_witness :
    ((id sampleList).children.get? 2 = some (sampleWidget 70 20 true) ∧
      (sampleWidget 70 20 true).visible = true) ∧
    ∃ c2, (ListWidget.step id sampleList).children.get? 2 = some c2 ∧
      c2.visible = true ∧
      c2.box.pos
        = { x := Float32.finite 0,
            y := ListWidget.runningHeight (Float32.finite 0)
                  ((id sampleList).children.take 2) } ∧
      c2.box.size.x = (ListWidget.step id sampleList).box.size.x ∧
      c2.box.size.x = (id sampleList).box.size.x ∧
      c2.box.size.y = (sampleWidget 70 20 true).box.size.y ∧
      c2.box.pos.y.add c2.box.size.y
        = ListWidget.runningHeight (Float32.finite 0)
            ((id sampleList).children.take (2 + 1)) ∧
      (∀ u : Widget → Nat,
        (∀ d ∈ (id sampleList).children.take 2, d.visible = true →
          d.box.size.y = Float32.ofNat (u d)) →
        ((((id sampleList).children.take 2).filter (fun d => d.visible)).map u).sum < 2 ^ 24 →
        c2.box.pos.y
          = Float32.ofNat
              (((((id sampleList).children.take 2).filter (fun d => d.visible)).map u).sum)) :=
  ⟨⟨rfl, rfl⟩, list_step_positions id sampleList 2 (sampleWidget 70 20 true) rfl rfl⟩

/-- C14: `List::step()` leaves the box of every invisible child exactly as it was, keeps
the number, the order and the visibility of the children, and keeps the position
and the width of the container. -/
theorem list_step_frame (widgetStep : ListWidget → ListWidget) (w : ListWidget) :
    (∀ (k : Nat) (c : Widget), (widgetStep w).children.get? k = some c → c.visible = false →
      (ListWidget.step widgetStep w).children.get? k = some c) ∧
    (ListWidget.step widgetStep w).children.length = (widgetStep w).children.length ∧
    (ListWidget.step widgetStep w).children.map (fun c => c.visible)
      = (widgetStep w).children.map (fun c => c.visible) ∧
    (∀ (k : Nat) (c : Widget), (widgetStep w).children.get? k = some c →
      ∃ c2, (ListWidget.step widgetStep w).children.get? k = some c2 ∧
        c2.visible = c.visible ∧ c2.box.size.y = c.box.size.y) ∧
    (ListWidget.step widgetStep w).box.pos = (widgetStep w).box.pos ∧
    (ListWidget.step widgetStep w).box.size.x = (widgetStep w).box.size.x := by
  refine ⟨?_, ListWidget.stepLoop_length _ _, ListWidget.stepLoop_visible _ _, ?_, ?_, ?_⟩
  · intro k c hk hv
    obtain ⟨c2, h1, _, h3, _⟩ := ListWidget.stepLoop_children
      { (widgetStep w).box with size := { (widgetStep w).box.size with y := Float32.finite 0 } }
      (widgetStep w).children k c hk
    rw [← h3 hv]
    exact h1
  · intro k c hk
    obtain ⟨c2, h1, h2, h3, h4⟩ := ListWidget.stepLoop_children
      { (widgetStep w).box with size := { (widgetStep w).box.size with y := Float32.finite 0 } }
      (widgetStep w).children k c hk
    refine ⟨c2, h1, h2, ?_⟩
    cases hv : c.visible with
    | false => rw [h3 hv]
    | true => exact (h4 hv).2.2
  · simp only [ListWidget.step, ListWidget.stepLoop_box]
  · simp only [ListWidget.step, ListWidget.stepLoop_box]

/-- C14 at the sample list: the invisible second child keeps its box. -/
theorem list_step_frame_witness :
    (ListWidget.step id sampleList).children.get? 1 = some (sampleWidget 60 0 false) :=
  (list_step_frame id sampleList).1 1 _ rfl rfl

/-- C15: with the step of the children leaving them unchanged, `List::step()` applied
twice gives the same container box and the same children, positions and sizes,
as applied once. -/
theorem list_step_idempotent (w : ListWidget) :
    ListWidget.step id (ListWidget.step id w) = ListWidget.step id w := by
  have e1 : ListWidget.step id w
      = { box := (ListWidget.stepLoop
                    { pos := w.box.pos, size := { x := w.box.size.x, y := Float32.finite 0 } }
                    w.children).1,
          children := (ListWidget.stepLoop
                    { pos := w.box.pos, size := { x := w.box.size.x, y := Float32.finite 0 } }
                    w.children).2 } :=
    rfl
  have e2 : ∀ v : ListWidget, ListWidget.step id v
      = { box := (ListWidget.stepLoop
                    { pos := v.box.pos, size := { x := v.box.size.x, y := Float32.finite 0 } }
                    v.children).1,
          children := (ListWidget.stepLoop
                    { pos := v.box.pos, size := { x := v.box.size.x, y := Float32.finite 0 } }
                    v.children).2 } :=
    fun _ => rfl
  rw [e1, e2]
  simp only [ListWidget.stepLoop_box, ListWidget.stepLoop_idem]

/-! ## The drain loop of `step` -/

namespace MIDITriggerToCVInterface

/-- A loop whose body commutes with a state change `g` commutes with it as a whole. -/
theorem foldl_comm_of_body (f : MIDITriggerToCVInterface → Fin 16 → MIDITriggerToCVInterface)
    (g : MIDITriggerToCVInterface → MIDITriggerToCVInterface)
    (hfg : ∀ s i, f (g s) i = g (f s i)) (l : List (Fin 16)) (s : MIDITriggerToCVInterface) :
    l.foldl f (g s) = g (l.foldl f s) := by
  induction l generalizing s with
  | nil => rfl
  | cons i l ih => simp only [List.foldl_cons, hfg, ih]

/-- The method `pressNote` does not look at the input queue. -/
theorem pressNote_with_midiInput (m : MIDITriggerToCVInterface) (q : midi.InputQueue)
    (note vel : Nat) :
    pressNote { m with midiInput := q } note vel
      = (pressNote m note vel).map (fun s => { s with midiInput := q }) := by
  have hbody : ∀ s i, pressNoteBody note vel { s with midiInput := q } i
      = (fun t : MIDITriggerToCVInterface => { t with midiInput := q })
          (pressNoteBody note vel s i) := by
    intro s i
    unfold pressNoteBody
    split_ifs <;> rfl
  have hfold := foldl_comm_of_body (pressNoteBody note vel)
    (fun t : MIDITriggerToCVInterface => { t with midiInput := q }) hbody (List.finRange 16)
  have hlearn : pressNoteLearn { m with midiInput := q } note
      = (pressNoteLearn m note).map (fun s => { s with midiInput := q }) := by
    unfold pressNoteLearn
    split_ifs <;> rfl
  unfold pressNote
  rw [hlearn]
  cases pressNoteLearn m note with
  | none => simp only [Option.map_none']
  | some m1 =>
    simp only [Option.map_some']
    exact congrArg some (hfold m1)

/-- The method `releaseNote` does not look at the input queue. -/
theorem releaseNote_with_midiInput (m : MIDITriggerToCVInterface) (q : midi.InputQueue)
    (note : Nat) :
    releaseNote { m with midiInput := q } note = { releaseNote m note with midiInput := q } := by
  have hbody : ∀ s i, releaseNoteBody note { s with midiInput := q } i
      = (fun t : MIDITriggerToCVInterface => { t with midiInput := q })
          (releaseNoteBody note s i) := by
    intro s i
    unfold releaseNoteBody
    split_ifs <;> rfl
  exact foldl_comm_of_body (releaseNoteBody note)
    (fun t : MIDITriggerToCVInterface => { t with midiInput := q }) hbody (List.finRange 16) m

/-- The method `processMessage` does not look at the input queue. -/
theorem processMessage_with_midiInput (m : MIDITriggerToCVInterface) (q : midi.InputQueue)
    (msg : midi.Message) :
    processMessage { m with midiInput := q } msg
      = (processMessage m msg).map (fun s => { s with midiInput := q }) := by
  unfold processMessage
  split_ifs
  · rw [releaseNote_with_midiInput]; rfl
  · exact pressNote_with_midiInput m q _ _
  · rw [releaseNote_with_midiInput]; rfl
  · rfl

/-- The drain loop overwrites the input queue before it reads it. -/
theorem drain_with_midiInput (rest : List midi.Message) (m : MIDITriggerToCVInterface)
    (q : midi.InputQueue) : drain rest { m with midiInput := q } = drain rest m := by
  cases rest <;> rfl

/-- The drain loop is `processMessage` applied to the pending messages from the first
to the last, followed by the emptying of the queue. -/
theorem drain_eq_foldlM (q : List midi.Message) (m : MIDITriggerToCVInterface) :
    drain q m
      = (q.foldlM processMessage m).map (fun s => { s with midiInput := { queue := [] } }) := by
  induction q generalizing m with
  | nil => rfl
  | cons msg rest ih =>
    simp only [drain, List.foldlM_cons, processMessage_with_midiInput]
    cases processMessage m msg with
    | none => rfl
    | some s =>
      simp only [Option.map_some', Option.some_bind, drain_with_midiInput]
      exact ih s

/-- The `shift` loop, given more rounds than there are pending messages, returns what
`drain` returns. -/
theorem drainLoop_eq_drain (fuel : Nat) (m : MIDITriggerToCVInterface)
    (hfuel : m.midiInput.queue.length < fuel) :
    drainLoop fuel m = some (drain m.midiInput.queue m) := by
  induction fuel generalizing m with
  | zero => exact absurd hfuel (Nat.not_lt_zero _)
  | succ fuel ih =>
    cases hq : m.midiInput.queue with
    | nil =>
      have hm : m.midiInput = { queue := [] } := by rw [← hq]
      have hs : ({ m with midiInput := { queue := [] } } : MIDITriggerToCVInterface) = m := by
        rw [← hm]
      simp only [drainLoop, midi.InputQueue.shift, hq, drain, hs]
    | cons msg rest =>
      simp only [drainLoop, midi.InputQueue.shift, hq, drain]
      cases hp : processMessage { m with midiInput := { queue := rest } } msg with
      | none => rfl
      | some m1 =>
        have hm1 : m1.midiInput = { queue := rest } := processMessage_midiInput _ m1 msg hp
        have hlen : m1.midiInput.queue.length < fuel := by
          rw [hm1]
          rw [hq] at hfuel
          simpa using hfuel
        simp only [Option.some_bind]
        rw [ih m1 hlen, hm1]

/-- With the learn cursor below 16, `pressNote` returns, and the cursor is cleared when
it was a channel and is unchanged when it was negative. -/
theorem pressNote_learningId (m : MIDITriggerToCVInterface) (note vel : Nat)
    (h : m.learningId < 16) :
    ∃ m2, pressNote m note vel = some m2 ∧
      m2.learningId = (if 0 ≤ m.learningId then -1 else m.learningId) := by
  by_cases h0 : 0 ≤ m.learningId
  · have hlt : m.learningId.toNat < 16 := by omega
    have hK : m.learningId = ((⟨m.learningId.toNat, hlt⟩ : Fin 16).val : Int) := by
      simp only
      omega
    refine ⟨_, pressNote_of_learning m ⟨m.learningId.toNat, hlt⟩ note vel hK, ?_⟩
    rw [(foldl_pressNoteBody note vel (List.finRange 16) _).2.1, if_pos h0]
  · refine ⟨_, pressNote_of_not_learning m note vel (not_le.mp h0), ?_⟩
    rw [(foldl_pressNoteBody note vel (List.finRange 16) _).2.1, if_neg h0]

/-- With the learn cursor below 16, `processMessage` returns, and the cursor is either
unchanged or cleared. -/
theorem processMessage_learningId (m : MIDITriggerToCVInterface) (msg : midi.Message)
    (h : m.learningId < 16) :
    ∃ m2, processMessage m msg = some m2 ∧
      (m2.learningId = m.learningId ∨ m2.learningId = -1) := by
  have hr : ∀ n, (releaseNote m n).learningId = m.learningId := fun n =>
    (foldl_releaseNoteBody n (List.finRange 16) m).2.1
  unfold processMessage
  split_ifs
  · exact ⟨_, rfl, Or.inl (hr _)⟩
  · obtain ⟨m2, h1, h2⟩ := pressNote_learningId m msg.getNote msg.getValue h
    refine ⟨m2, h1, ?_⟩
    rw [h2]
    split_ifs
    · exact Or.inr rfl
    · exact Or.inl rfl
  · exact ⟨_, rfl, Or.inl (hr _)⟩
  · exact ⟨m, rfl, Or.inl rfl⟩

/-- With the learn cursor below 16, `processMessage` over any list of messages returns,
and the cursor is unchanged or cleared. -/
theorem foldlM_processMessage_learningId (q : List midi.Message) (m : MIDITriggerToCVInterface)
    (h : m.learningId < 16) :
    ∃ m1, q.foldlM processMessage m = some m1 ∧
      (m1.learningId = m.learningId ∨ m1.learningId = -1) := by
  induction q generalizing m with
  | nil => exact ⟨m, rfl, Or.inl rfl⟩
  | cons msg rest ih =>
    obtain ⟨m2, h1, h2⟩ := processMessage_learningId m msg h
    have h16 : m2.learningId < 16 := by
      rcases h2 with h2 | h2 <;> rw [h2]
      · exact h
      · decide
    obtain ⟨m1, g1, g2⟩ := ih m2 h16
    refine ⟨m1, ?_, ?_⟩
    · simp only [List.foldlM_cons, h1, Option.bind_eq_bind, Option.some_bind]
      exact g1
    · rcases g2 with g2 | g2
      · rw [g2]; exact h2
      · exact Or.inr g2

end MIDITriggerToCVInterface

/-- C16: for every module state and every queue of pending messages, the `shift` loop
of `step` stops within one round more than there are messages; its result, and
so the state that the output pass of `step` sees, is `processMessage` applied to
the pending messages one after another in arrival order from the state before
the tick, with the queue emptied; and `step` leaves the queue empty. These
results are undefined only where a `processMessage` on the way writes outside
`learnedNotes`: with the learn cursor below 16 they are all defined, so `step`
returns. -/
theorem step_drains_queue_fifo (floatSub : ℚ → ℚ → ℚ) (m : MIDITriggerToCVInterface) (dt : ℚ) :
    (∀ fuel, m.midiInput.queue.length < fuel →
      drainLoop fuel m = some (drain m.midiInput.queue m)) ∧
    drain m.midiInput.queue m
      = (m.midiInput.queue.foldlM processMessage m).map
          (fun s => { s with midiInput := { queue := [] } }) ∧
    MIDITriggerToCVInterface.step floatSub m dt
      = ((m.midiInput.queue.foldlM processMessage m).map
          (fun s => { s with midiInput := { queue := [] } })).map (stepOutputs floatSub dt) ∧
    (∀ m2, MIDITriggerToCVInterface.step floatSub m dt = some m2 → m2.midiInput.queue = []) ∧
    (m.learningId < 16 →
      ∃ m1, m.midiInput.queue.foldlM processMessage m = some m1 ∧
        (∀ fuel, m.midiInput.queue.length < fuel →
          drainLoop fuel m = some (some { m1 with midiInput := { queue := [] } })) ∧
        MIDITriggerToCVInterface.step floatSub m dt
          = some (stepOutputs floatSub dt { m1 with midiInput := { queue := [] } })) := by
  have hstep : MIDITriggerToCVInterface.step floatSub m dt
      = ((m.midiInput.queue.foldlM processMessage m).map
          (fun s => { s with midiInput := { queue := [] } })).map (stepOutputs floatSub dt) := by
    simp only [MIDITriggerToCVInterface.step, drain_eq_foldlM]
  refine ⟨fun fuel hfuel => drainLoop_eq_drain fuel m hfuel, drain_eq_foldlM _ m, hstep, ?_, ?_⟩
  · intro m2 h2
    rw [hstep] at h2
    cases hf : m.midiInput.queue.foldlM processMessage m with
    | none => rw [hf] at h2; simp at h2
    | some m1 =>
      rw [hf] at h2
      simp only [Option.map_some', Option.some.injEq] at h2
      rw [← h2, (stepOutputs_spec floatSub dt _).1]
  · intro hcur
    obtain ⟨m1, h1, _⟩ := foldlM_processMessage_learningId m.midiInput.queue m hcur
    refine ⟨m1, h1, ?_, ?_⟩
    · intro fuel hfuel
      rw [drainLoop_eq_drain fuel m hfuel, drain_eq_foldlM, h1]
      rfl
    · rw [hstep, h1]
      rfl

/-- C16 at a fresh module with a note-on and a note-off pending: `step` returns. -/
theorem step_drains_queue_fifo_witness :
    pendingPulseModule.learningId < 16 ∧
    ∃ m1, pendingPulseModule.midiInput.queue.foldlM processMessage pendingPulseModule = some m1 ∧
      (∀ fuel, pendingPulseModule.midiInput.queue.length < fuel →
        drainLoop fuel pendingPulseModule
          = some (some { m1 with midiInput := { queue := [] } })) ∧
      MIDITriggerToCVInterface.step exactSub pendingPulseModule (1 / 44100)
        = some (stepOutputs exactSub (1 / 44100) { m1 with midiInput := { queue := [] } }) :=
  ⟨by decide, (step_drains_queue_fifo exactSub pendingPulseModule (1 / 44100)).2.2.2.2 (by decide)⟩

/-! ## The label of a grid choice -/

/-- C17: for every stored note value (every byte, and every natural number), the
semitone index `note % 12` of `MidiTrigChoice::step` is in `0..11`, the table is
read inside its 12 entries, and the label is the name at that index formatted
with the octave `note / 12 - 1`; with the `"%s%d"` conversion, note 36 gives
"C2", note 60 gives "C4", note 0 gives "C-1" and note 255 gives "D#20". -/
theorem noteLabel_in_table (fmt : String → Int → String) (note : Nat) :
    MidiTrigChoice.noteNames.length = 12 ∧
    note % 12 < MidiTrigChoice.noteNames.length ∧
    (∃ name, MidiTrigChoice.noteNames.get? (note % 12) = some name ∧
      MidiTrigChoice.noteLabel fmt note = some (fmt name (((note / 12 : Nat) : Int) - 1))) ∧
    (∀ (m : MIDITriggerToCVInterface) (id : Fin 16), m.learningId ≠ (id.val : Int) →
      m.learnedNotes id = note →
      MidiTrigChoice.step fmt m id.val = MidiTrigChoice.noteLabel fmt note) ∧
    MidiTrigChoice.noteLabel MidiTrigChoice.formatSD 36 = some "C2" ∧
    MidiTrigChoice.noteLabel MidiTrigChoice.formatSD 60 = some "C4" ∧
    MidiTrigChoice.noteLabel MidiTrigChoice.formatSD 0 = some "C-1" ∧
    MidiTrigChoice.noteLabel MidiTrigChoice.formatSD 255 = some "D#20" := by
  have hlen : MidiTrigChoice.noteNames.length = 12 := rfl
  have hlt : note % 12 < MidiTrigChoice.noteNames.length := by
    rw [hlen]
    exact Nat.mod_lt _ (by decide)
  refine ⟨hlen, hlt, ?_, ?_, by decide, by decide, by decide, by decide⟩
  · refine ⟨MidiTrigChoice.noteNames.get ⟨note % 12, hlt⟩, List.get?_eq_get hlt, ?_⟩
    simp only [MidiTrigChoice.noteLabel, List.get?_eq_get hlt, Option.map_some']
  · intro m id hne hnote
    have hid : (0 : Int) ≤ (id.val : Int) ∧ ((id.val : Int)).toNat < 16 := by
      refine ⟨Int.natCast_nonneg _, ?_⟩
      rw [Int.toNat_natCast]
      exact id.isLt
    have hfin : (⟨((id.val : Int)).toNat, hid.2⟩ : Fin 16) = id := Fin.ext (Int.toNat_natCast _)
    simp only [MidiTrigChoice.step, hne, if_false, hid, and_self, dite_true, hfin, hnote]

/-- C17 at a fresh module: the choice of channel 0, which is not learning, shows the
label of note 36. -/
theorem noteLabel_in_table_witness :
    MidiTrigChoice.step MidiTrigChoice.formatSD freshModule (0 : Fin 16).val
      = MidiTrigChoice.noteLabel MidiTrigChoice.formatSD 36 :=
  (noteLabel_in_table MidiTrigChoice.formatSD 36).2.2.2.1 freshModule 0 (by decide) (by decide)

/-! ## Reachable states -/

namespace MIDITriggerToCVInterface

/-- The "learn" block of `pressNote` writes `learnedNotes` and `learningId` only. -/
theorem pressNoteLearn_fields (m m1 : MIDITriggerToCVInterface) (note : Nat)
    (h : pressNoteLearn m note = some m1) :
    m1.midiInput = m.midiInput ∧ m1.gates = m.gates ∧ m1.gateTimes = m.gateTimes ∧
    m1.velocities = m.velocities ∧ m1.velocity = m.velocity ∧ m1.outputs = m.outputs := by
  unfold pressNoteLearn at h
  split_ifs at h
  · simp only [Option.some.injEq] at h
    rw [← h]
    exact ⟨rfl, rfl, rfl, rfl, rfl, rfl⟩
  · simp only [Option.some.injEq] at h
    rw [← h]
    exact ⟨rfl, rfl, rfl, rfl, rfl, rfl⟩

/-- A call of `pressNote` that returns is its "learn" block followed by its loop. -/
theorem pressNote_some (m m2 : MIDITriggerToCVInterface) (note vel : Nat)
    (h : pressNote m note vel = some m2) :
    ∃ m1, pressNoteLearn m note = some m1 ∧
      m2 = (List.finRange 16).foldl (pressNoteBody note vel) m1 := by
  unfold pressNote at h
  cases hl : pressNoteLearn m note with
  | none => rw [hl] at h; simp at h
  | some m1 =>
    rw [hl] at h
    simp only [Option.map_some', Option.some.injEq] at h
    exact ⟨m1, rfl, h.symm⟩

/-- The fields that `dataFromJson` leaves alone. -/
theorem dataFromJson_fields (midiFromJson : midi.InputQueue → Json → midi.InputQueue)
    (m : MIDITriggerToCVInterface) (rootJ : Json) :
    (dataFromJson midiFromJson m rootJ).gates = m.gates ∧
    (dataFromJson midiFromJson m rootJ).gateTimes = m.gateTimes ∧
    (dataFromJson midiFromJson m rootJ).velocities = m.velocities ∧
    (dataFromJson midiFromJson m rootJ).learningId = m.learningId ∧
    (dataFromJson midiFromJson m rootJ).outputs = m.outputs := by
  unfold dataFromJson
  cases hn : json_object_get rootJ "notes" with
  | none =>
    cases json_object_get rootJ "midi" <;> cases json_object_get rootJ "velocity" <;>
      exact ⟨rfl, rfl, rfl, rfl, rfl⟩
  | some notesJ =>
    obtain ⟨_, h2, h3, h4, h5, _, h7, _⟩ :=
      foldl_notesFromJsonBody notesJ (List.finRange 16) m
    cases json_object_get rootJ "midi" <;> cases json_object_get rootJ "velocity" <;>
      exact ⟨h2, h3, h4, h5, h7⟩

/-- An open gate has the hold time `1e-3f`: kept by `pressNote`. -/
theorem pressNote_openGate (m m2 : MIDITriggerToCVInterface) (note vel : Nat)
    (hinv : ∀ i : Fin 16, m.gates i = true → m.gateTimes i = holdEpsilon)
    (h : pressNote m note vel = some m2) :
    ∀ i : Fin 16, m2.gates i = true → m2.gateTimes i = holdEpsilon := by
  obtain ⟨m1, hl, hm2⟩ := pressNote_some m m2 note vel h
  obtain ⟨_, hg, ht, _, _, _⟩ := pressNoteLearn_fields m m1 note hl
  intro i
  obtain ⟨g1, g2, _⟩ := (foldl_pressNoteBody note vel (List.finRange 16) m1).2.2.2.2.2 i
  rw [hm2, g1, g2]
  by_cases hc : i ∈ List.finRange 16 ∧ m1.learnedNotes i = note
  · simp [hc]
  · rw [if_neg hc, if_neg hc, hg, ht]
    exact hinv i

/-- An open gate has the hold time `1e-3f`: kept by `releaseNote`. -/
theorem releaseNote_openGate (m : MIDITriggerToCVInterface) (note : Nat)
    (hinv : ∀ i : Fin 16, m.gates i = true → m.gateTimes i = holdEpsilon) :
    ∀ i : Fin 16, (releaseNote m note).gates i = true →
      (releaseNote m note).gateTimes i = holdEpsilon := by
  intro i
  obtain ⟨_, _, _, _, _, h6, _, h8⟩ := foldl_releaseNoteBody note (List.finRange 16) m
  unfold releaseNote
  rw [h8 i, h6]
  by_cases hc : i ∈ List.finRange 16 ∧ m.learnedNotes i = note
  · simp [hc]
  · rw [if_neg hc]
    exact hinv i

/-- An open gate has the hold time `1e-3f`: kept by `processMessage`. -/
theorem processMessage_openGate (m m2 : MIDITriggerToCVInterface) (msg : midi.Message)
    (hinv : ∀ i : Fin 16, m.gates i = true → m.gateTimes i = holdEpsilon)
    (h : processMessage m msg = some m2) :
    ∀ i : Fin 16, m2.gates i = true → m2.gateTimes i = holdEpsilon := by
  unfold processMessage at h
  split_ifs at h
  · simp only [Option.some.injEq] at h
    rw [← h]
    exact releaseNote_openGate m _ hinv
  · exact pressNote_openGate m m2 _ _ hinv h
  · simp only [Option.some.injEq] at h
    rw [← h]
    exact releaseNote_openGate m _ hinv
  · simp only [Option.some.injEq] at h
    rw [← h]
    exact hinv

/-- An open gate has the hold time `1e-3f`: kept by the drain loop of `step`. -/
theorem drain_openGate (q : List midi.Message) (m m1 : MIDITriggerToCVInterface)
    (hinv : ∀ i : Fin 16, m.gates i = true → m.gateTimes i = holdEpsilon)
    (h : drain q m = some m1) :
    ∀ i : Fin 16, m1.gates i = true → m1.gateTimes i = holdEpsilon := by
  induction q generalizing m with
  | nil =>
    simp only [drain, Option.some.injEq] at h
    rw [← h]
    exact hinv
  | cons msg rest ih =>
    simp only [drain] at h
    cases hp : processMessage { m with midiInput := { queue := rest } } msg with
    | none => rw [hp] at h; simp at h
    | some m3 =>
      rw [hp] at h
      have hinv2 : ∀ i : Fin 16,
          ({ m with midiInput := { queue := rest } } : MIDITriggerToCVInterface).gates i = true →
          ({ m with midiInput := { queue := rest } } : MIDITriggerToCVInterface).gateTimes i
            = holdEpsilon := fun i hi => hinv i hi
      exact ih m3 (processMessage_openGate
        { m with midiInput := { queue := rest } } m3 msg hinv2 hp) h

/-- An open gate has the hold time `1e-3f`: kept by the output pass of `step`, which
outputs the on level on such a channel. -/
theorem stepOutputs_openGate (floatSub : ℚ → ℚ → ℚ) (dt : ℚ) (m : MIDITriggerToCVInterface)
    (hinv : ∀ i : Fin 16, m.gates i = true → m.gateTimes i = holdEpsilon) :
    ∀ i : Fin 16, (stepOutputs floatSub dt m).gates i = true →
      (stepOutputs floatSub dt m).gateTimes i = holdEpsilon ∧
      (stepOutputs floatSub dt m).outputs i = onLevel (stepOutputs floatSub dt m) i := by
  intro i hi
  obtain ⟨_, h2, h3, _, _, h6, h7⟩ := stepOutputs_spec floatSub dt m
  rw [h2] at hi
  have ht := hinv i hi
  have hpos : 0 < m.gateTimes i := by rw [ht]; exact holdEpsilon_pos
  obtain ⟨g1, g2⟩ := h7 i
  refine ⟨?_, ?_⟩
  · rw [g2, if_neg (by simp [hi]), ht]
  · rw [g1, if_pos hpos]
    simp only [onLevel, h3, h6]

/-- An open gate has the hold time `1e-3f`: kept by `step`, which outputs the on level
on such a channel. -/
theorem step_openGate (floatSub : ℚ → ℚ → ℚ) (dt : ℚ) (m m2 : MIDITriggerToCVInterface)
    (hinv : ∀ i : Fin 16, m.gates i = true → m.gateTimes i = holdEpsilon)
    (h : MIDITriggerToCVInterface.step floatSub m dt = some m2) :
    ∀ i : Fin 16, m2.gates i = true →
      m2.gateTimes i = holdEpsilon ∧ m2.outputs i = onLevel m2 i := by
  unfold MIDITriggerToCVInterface.step at h
  cases hd : drain m.midiInput.queue m with
  | none => rw [hd] at h; simp at h
  | some m1 =>
    rw [hd] at h
    simp only [Option.map_some', Option.some.injEq] at h
    rw [← h]
    exact stepOutputs_openGate floatSub dt m1 (drain_openGate _ m m1 hinv hd)

/-- After `onReset` every gate is closed and every hold time is `0`. -/
theorem onReset_gates (m : MIDITriggerToCVInterface) :
    ∀ i : Fin 16, (onReset m).gates i = false ∧ (onReset m).gateTimes i = 0 := by
  intro i
  obtain ⟨g1, g2, _⟩ := (foldl_onResetBody (List.finRange 16) m).2.2.2.2.2 i
  refine ⟨?_, ?_⟩
  · show ((List.finRange 16).foldl onResetBody m).gates i = false
    rw [g1, if_pos (List.mem_finRange i)]
  · show ((List.finRange 16).foldl onResetBody m).gateTimes i = 0
    rw [g2, if_pos (List.mem_finRange i)]

end MIDITriggerToCVInterface

/-- An open gate has the hold time `1e-3f`: kept by every event. -/
theorem apply_openGate (floatSub : ℚ → ℚ → ℚ)
    (midiFromJson : midi.InputQueue → Json → midi.InputQueue)
    (m m2 : MIDITriggerToCVInterface) (a : Action)
    (hinv : ∀ i : Fin 16, m.gates i = true → m.gateTimes i = holdEpsilon)
    (h : Action.apply floatSub midiFromJson m a = some m2) :
    ∀ i : Fin 16, m2.gates i = true → m2.gateTimes i = holdEpsilon := by
  cases a with
  | pressNote note vel => exact pressNote_openGate m m2 note vel hinv h
  | releaseNote note =>
    simp only [Action.apply, Option.some.injEq] at h
    rw [← h]
    exact releaseNote_openGate m note hinv
  | processMessage msg => exact processMessage_openGate m m2 msg hinv h
  | receive msg =>
    simp only [Action.apply, Option.some.injEq] at h
    rw [← h]
    exact hinv
  | step dt => exact fun i hi => (step_openGate floatSub dt m m2 hinv h i hi).1
  | dataFromJson rootJ =>
    simp only [Action.apply, Option.some.injEq] at h
    rw [← h]
    obtain ⟨h1, h2, _⟩ := dataFromJson_fields midiFromJson m rootJ
    rw [h1, h2]
    exact hinv
  | onSelect id =>
    simp only [Action.apply, Option.some.injEq] at h
    rw [← h]
    exact hinv
  | onDeselect =>
    simp only [Action.apply, Option.some.injEq] at h
    rw [← h]
    exact hinv
  | onReset =>
    simp only [Action.apply, Option.some.injEq] at h
    rw [← h]
    intro i hi
    rw [(onReset_gates m i).1] at hi
    exact absurd hi (by decide)
  | toggleVelocity =>
    simp only [Action.apply, Option.some.injEq] at h
    rw [← h]
    exact hinv

/-- An open gate has the hold time `1e-3f`: kept by every sequence of events. -/
theorem run_openGate (floatSub : ℚ → ℚ → ℚ)
    (midiFromJson : midi.InputQueue → Json → midi.InputQueue)
    (acts : List Action) (m m2 : MIDITriggerToCVInterface)
    (hinv : ∀ i : Fin 16, m.gates i = true → m.gateTimes i = holdEpsilon)
    (h : run floatSub midiFromJson m acts = some m2) :
    ∀ i : Fin 16, m2.gates i = true → m2.gateTimes i = holdEpsilon := by
  induction acts generalizing m with
  | nil =>
    simp only [run, Option.some.injEq] at h
    rw [← h]
    exact hinv
  | cons a rest ih =>
    simp only [run] at h
    cases ha : Action.apply floatSub midiFromJson m a with
    | none => rw [ha] at h; simp at h
    | some m1 =>
      rw [ha] at h
      exact ih m1 (apply_openGate floatSub midiFromJson m m1 a hinv ha) h

/-- C18: in every state `m2` reached from `onReset()` by a sequence of events
(`pressNote`, `releaseNote`, `processMessage`, arriving messages, `step` with any
tick duration, `dataFromJson`, learn select and deselect, `onReset`, the velocity
item), every channel whose gate is open has `gateTimes[i] = 1e-3f > 0`; and a tick
from such a state outputs the on level on every channel whose gate is open
after it. -/
theorem reachable_openGate_holdTime (floatSub : ℚ → ℚ → ℚ)
    (midiFromJson : midi.InputQueue → Json → midi.InputQueue)
    (m0 m2 : MIDITriggerToCVInterface) (acts : List Action)
    (hrun : run floatSub midiFromJson (onReset m0) acts = some m2) :
    (∀ i : Fin 16, m2.gates i = true → m2.gateTimes i = holdEpsilon ∧ 0 < m2.gateTimes i) ∧
    (∀ (dt : ℚ) (m3 : MIDITriggerToCVInterface),
      MIDITriggerToCVInterface.step floatSub m2 dt = some m3 →
      ∀ i : Fin 16, m3.gates i = true → m3.outputs i = onLevel m3 i) := by
  have hreset : ∀ i : Fin 16, (onReset m0).gates i = true →
      (onReset m0).gateTimes i = holdEpsilon := by
    intro i hi
    rw [(onReset_gates m0 i).1] at hi
    exact absurd hi (by decide)
  have hinv := run_openGate floatSub midiFromJson acts (onReset m0) m2 hreset hrun
  refine ⟨?_, ?_⟩
  · intro i hi
    have := hinv i hi
    refine ⟨this, ?_⟩
    rw [this]
    exact holdEpsilon_pos
  · intro dt m3 hstep i hi
    exact (step_openGate floatSub dt m2 m3 hinv hstep i hi).2

/-- C18 at a fresh module on which note 36 is pressed and one tick passes. -/
theorem reachable_openGate_holdTime_witness :
    run exactSub (fun q _ => q) (onReset freshModule) [Action.pressNote 36 100, Action.step (1 / 44100)]
      = some heldNoteModule ∧
    (∀ i : Fin 16, heldNoteModule.gates i = true →
      heldNoteModule.gateTimes i = holdEpsilon ∧ 0 < heldNoteModule.gateTimes i) ∧
    (∀ (dt : ℚ) (m3 : MIDITriggerToCVInterface),
      MIDITriggerToCVInterface.step exactSub heldNoteModule dt = some m3 →
      ∀ i : Fin 16, m3.gates i = true → m3.outputs i = onLevel m3 i) :=
  ⟨rfl, reachable_openGate_holdTime exactSub (fun q _ => q) freshModule heldNoteModule
    [Action.pressNote 36 100, Action.step (1 / 44100)] rfl⟩

/-! ## Independence from the velocities that reset leaves unset -/

namespace MIDITriggerToCVInterface

/-- A loop whose body keeps two states in agreement keeps them in agreement. -/
theorem foldl_same (f : MIDITriggerToCVInterface → Fin 16 → MIDITriggerToCVInterface)
    (hf : ∀ s t i, SameUpToIdleVelocities s t → SameUpToIdleVelocities (f s i) (f t i))
    (l : List (Fin 16)) (s t : MIDITriggerToCVInterface) (h : SameUpToIdleVelocities s t) :
    SameUpToIdleVelocities (l.foldl f s) (l.foldl f t) := by
  induction l generalizing s t with
  | nil => exact h
  | cons i l ih => exact ih _ _ (hf s t i h)

/-- The body of the loop of `pressNote` keeps two states in agreement. -/
theorem same_pressNoteBody (note vel : Nat) (s t : MIDITriggerToCVInterface) (i : Fin 16)
    (h : SameUpToIdleVelocities s t) :
    SameUpToIdleVelocities (pressNoteBody note vel s i) (pressNoteBody note vel t i) := by
  obtain ⟨h1, h2, h3, h4, h5, h6, h7, h8⟩ := h
  unfold pressNoteBody
  rw [← h5]
  split_ifs
  · refine ⟨?_, ?_, ?_, ?_, ?_, ?_, ?_, ?_⟩
    iterate 7 (first | rfl | assumption | (dsimp only; simp only [h1, h2, h3, h4, h5, h6, h7]))
    intro j hj
    dsimp only at hj ⊢
    by_cases hji : j = i
    · subst hji; simp
    · rw [Function.update_noteq hji] at hj
      rw [Function.update_noteq hji, Function.update_noteq hji]
      exact h8 j hj
  · exact ⟨h1, h2, h3, h4, h5, h6, h7, h8⟩

/-- The body of the loop of `releaseNote` keeps two states in agreement. -/
theorem same_releaseNoteBody (note : Nat) (s t : MIDITriggerToCVInterface) (i : Fin 16)
    (h : SameUpToIdleVelocities s t) :
    SameUpToIdleVelocities (releaseNoteBody note s i) (releaseNoteBody note t i) := by
  obtain ⟨h1, h2, h3, h4, h5, h6, h7, h8⟩ := h
  unfold releaseNoteBody
  rw [← h5]
  split_ifs
  · refine ⟨?_, ?_, ?_, ?_, ?_, ?_, ?_, h8⟩
    iterate 7 (first | rfl | assumption | (dsimp only; simp only [h1, h2, h3, h4, h5, h6, h7]))
  · exact ⟨h1, h2, h3, h4, h5, h6, h7, h8⟩

/-- The body of the loop of `onReset` keeps two states in agreement. -/
theorem same_onResetBody (s t : MIDITriggerToCVInterface) (i : Fin 16)
    (h : SameUpToIdleVelocities s t) :
    SameUpToIdleVelocities (onResetBody s i) (onResetBody t i) := by
  obtain ⟨h1, h2, h3, h4, h5, h6, h7, h8⟩ := h
  unfold onResetBody
  refine ⟨?_, ?_, ?_, ?_, ?_, ?_, ?_, ?_⟩
  iterate 7 (first | rfl | assumption | (dsimp only; simp only [h1, h2, h3, h4, h5, h6, h7]))
  intro j hj
  dsimp only at hj ⊢
  by_cases hji : j = i
  · subst hji
    simp at hj
  · rw [Function.update_noteq hji] at hj
    exact h8 j hj

/-- The body of the loop of `dataFromJson` keeps two states in agreement. -/
theorem same_notesFromJsonBody (notesJ : Json) (s t : MIDITriggerToCVInterface) (i : Fin 16)
    (h : SameUpToIdleVelocities s t) :
    SameUpToIdleVelocities (notesFromJsonBody notesJ s i) (notesFromJsonBody notesJ t i) := by
  obtain ⟨h1, h2, h3, h4, h5, h6, h7, h8⟩ := h
  unfold notesFromJsonBody
  cases json_array_get notesJ i.val with
  | none => exact ⟨h1, h2, h3, h4, h5, h6, h7, h8⟩
  | some noteJ =>
    refine ⟨?_, ?_, ?_, ?_, ?_, ?_, ?_, h8⟩
    iterate 7 (first | rfl | assumption | (dsimp only; simp only [h1, h2, h3, h4, h5, h6, h7]))

/-- The body of the output loop of `step` keeps two states in agreement: the velocity
of a channel is read only while its hold time is positive. -/
theorem same_stepBody (floatSub : ℚ → ℚ → ℚ) (dt : ℚ) (s t : MIDITriggerToCVInterface) (i : Fin 16)
    (h : SameUpToIdleVelocities s t) :
    SameUpToIdleVelocities (stepBody floatSub dt s i) (stepBody floatSub dt t i) := by
  obtain ⟨h1, h2, h3, h4, h5, h6, h7, h8⟩ := h
  unfold stepBody
  rw [← h3, ← h2]
  by_cases hpos : s.gateTimes i > 0
  · have hlevel : onLevel t i = onLevel s i := by
      unfold onLevel
      rw [h6, h8 i hpos]
    simp only [hpos, if_true, hlevel]
    by_cases hg : s.gates i = true
    · simp only [hg, Bool.not_true, Bool.false_eq_true, if_false]
      refine ⟨?_, ?_, ?_, ?_, ?_, ?_, ?_, h8⟩
      iterate 7 (first | rfl | assumption | (dsimp only; simp only [h1, h2, h3, h4, h5, h6, h7]))
    · simp only [Bool.not_eq_true] at hg
      simp only [hg, Bool.not_false, if_true]
      refine ⟨?_, ?_, ?_, ?_, ?_, ?_, ?_, ?_⟩
      iterate 7 (first | rfl | assumption | (dsimp only; simp only [h1, h2, h3, h4, h5, h6, h7]))
      intro j hj
      dsimp only at hj ⊢
      by_cases hji : j = i
      · subst hji
        exact h8 j hpos
      · rw [Function.update_noteq hji] at hj
        exact h8 j hj
  · simp only [hpos, if_false]
    refine ⟨?_, ?_, ?_, ?_, ?_, ?_, ?_, h8⟩
    iterate 7 (first | rfl | assumption | (dsimp only; simp only [h1, h2, h3, h4, h5, h6, h7]))

/-- The "learn" block of `pressNote` keeps two states in agreement. -/
theorem same_pressNoteLearn (note : Nat) (m n : MIDITriggerToCVInterface)
    (h : SameUpToIdleVelocities m n) :
    OptionSame (pressNoteLearn m note) (pressNoteLearn n note) := by
  obtain ⟨h1, h2, h3, h4, h5, h6, h7, h8⟩ := h
  unfold pressNoteLearn
  by_cases h0 : 0 ≤ m.learningId
  · by_cases hlt : m.learningId.toNat < 16
    · have hlt2 : n.learningId.toNat < 16 := by rw [← h4]; exact hlt
      have hfin : (⟨n.learningId.toNat, hlt2⟩ : Fin 16) = ⟨m.learningId.toNat, hlt⟩ :=
        Fin.ext (congrArg Int.toNat h4.symm)
      rw [if_pos h0, if_pos (h4 ▸ h0), dif_pos hlt, dif_pos hlt2, hfin]
      refine ⟨h1, h2, h3, rfl, ?_, h6, h7, h8⟩
      dsimp only; rw [h5]
    · have hlt2 : ¬ n.learningId.toNat < 16 := by rw [← h4]; exact hlt
      rw [if_pos h0, if_pos (h4 ▸ h0), dif_neg hlt, dif_neg hlt2]
      exact True.intro
  · rw [if_neg h0, if_neg (h4 ▸ h0)]
    exact ⟨h1, h2, h3, h4, h5, h6, h7, h8⟩

/-- The method `pressNote` keeps two states in agreement. -/
theorem same_pressNote (note vel : Nat) (m n : MIDITriggerToCVInterface)
    (h : SameUpToIdleVelocities m n) :
    OptionSame (pressNote m note vel) (pressNote n note vel) := by
  have hl := same_pressNoteLearn note m n h
  unfold pressNote
  cases hm : pressNoteLearn m note with
  | none =>
    cases hn : pressNoteLearn n note with
    | none => exact True.intro
    | some n1 => rw [hm, hn] at hl; exact hl.elim
  | some m1 =>
    cases hn : pressNoteLearn n note with
    | none => rw [hm, hn] at hl; exact hl.elim
    | some n1 =>
      rw [hm, hn] at hl
      simp only [Option.map_some']
      exact foldl_same (pressNoteBody note vel) (same_pressNoteBody note vel)
        (List.finRange 16) m1 n1 hl

/-- The method `releaseNote` keeps two states in agreement. -/
theorem same_releaseNote (note : Nat) (m n : MIDITriggerToCVInterface)
    (h : SameUpToIdleVelocities m n) :
    SameUpToIdleVelocities (releaseNote m note) (releaseNote n note) :=
  foldl_same (releaseNoteBody note) (same_releaseNoteBody note) _ m n h

/-- The method `processMessage` keeps two states in agreement. -/
theorem same_processMessage (msg : midi.Message) (m n : MIDITriggerToCVInterface)
    (h : SameUpToIdleVelocities m n) :
    OptionSame (processMessage m msg) (processMessage n msg) := by
  unfold processMessage
  split_ifs
  · exact same_releaseNote _ m n h
  · exact same_pressNote _ _ m n h
  · exact same_releaseNote _ m n h
  · exact h

/-- The drain loop of `step` keeps two states in agreement. -/
theorem same_drain (q : List midi.Message) (m n : MIDITriggerToCVInterface)
    (h : SameUpToIdleVelocities m n) : OptionSame (drain q m) (drain q n) := by
  induction q generalizing m n with
  | nil =>
    obtain ⟨_, h2, h3, h4, h5, h6, h7, h8⟩ := h
    exact ⟨rfl, h2, h3, h4, h5, h6, h7, h8⟩
  | cons msg rest ih =>
    have hset : SameUpToIdleVelocities
        ({ m with midiInput := { queue := rest } } : MIDITriggerToCVInterface)
        ({ n with midiInput := { queue := rest } } : MIDITriggerToCVInterface) := by
      obtain ⟨_, h2, h3, h4, h5, h6, h7, h8⟩ := h
      exact ⟨rfl, h2, h3, h4, h5, h6, h7, h8⟩
    have hp := same_processMessage msg _ _ hset
    simp only [drain]
    cases hm : processMessage { m with midiInput := { queue := rest } } msg with
    | none =>
      cases hn : processMessage { n with midiInput := { queue := rest } } msg with
      | none => exact True.intro
      | some n1 => rw [hm, hn] at hp; exact hp.elim
    | some m1 =>
      cases hn : processMessage { n with midiInput := { queue := rest } } msg with
      | none => rw [hm, hn] at hp; exact hp.elim
      | some n1 =>
        rw [hm, hn] at hp
        exact ih m1 n1 hp

/-- The method `step` keeps two states in agreement. -/
theorem same_step (floatSub : ℚ → ℚ → ℚ) (dt : ℚ) (m n : MIDITriggerToCVInterface)
    (h : SameUpToIdleVelocities m n) :
    OptionSame (MIDITriggerToCVInterface.step floatSub m dt) (MIDITriggerToCVInterface.step floatSub n dt) := by
  have hd := same_drain m.midiInput.queue m n h
  unfold MIDITriggerToCVInterface.step
  rw [← h.1]
  cases hm : drain m.midiInput.queue m with
  | none =>
    cases hn : drain m.midiInput.queue n with
    | none => exact True.intro
    | some n1 => rw [hm, hn] at hd; exact hd.elim
  | some m1 =>
    cases hn : drain m.midiInput.queue n with
    | none => rw [hm, hn] at hd; exact hd.elim
    | some n1 =>
      rw [hm, hn] at hd
      simp only [Option.map_some']
      exact foldl_same (stepBody floatSub dt) (same_stepBody floatSub dt) (List.finRange 16) m1 n1 hd

/-- The method `dataFromJson` keeps two states in agreement. -/
theorem same_dataFromJson (midiFromJson : midi.InputQueue → Json → midi.InputQueue)
    (rootJ : Json) (m n : MIDITriggerToCVInterface) (h : SameUpToIdleVelocities m n) :
    SameUpToIdleVelocities (dataFromJson midiFromJson m rootJ)
      (dataFromJson midiFromJson n rootJ) := by
  have hnotes : ∀ notesJ, SameUpToIdleVelocities
      ((List.finRange 16).foldl (notesFromJsonBody notesJ) m)
      ((List.finRange 16).foldl (notesFromJsonBody notesJ) n) := fun notesJ =>
    foldl_same (notesFromJsonBody notesJ) (same_notesFromJsonBody notesJ) _ m n h
  have hmidi : ∀ (s t : MIDITriggerToCVInterface) (midiJ : Json), SameUpToIdleVelocities s t →
      SameUpToIdleVelocities
        ({ s with midiInput := midiFromJson s.midiInput midiJ } : MIDITriggerToCVInterface)
        ({ t with midiInput := midiFromJson t.midiInput midiJ } : MIDITriggerToCVInterface) := by
    intro s t midiJ hst
    obtain ⟨h1, h2, h3, h4, h5, h6, h7, h8⟩ := hst
    refine ⟨?_, h2, h3, h4, h5, h6, h7, h8⟩
    dsimp only; rw [h1]
  have hvel : ∀ (s t : MIDITriggerToCVInterface) (b : Bool), SameUpToIdleVelocities s t →
      SameUpToIdleVelocities
        ({ s with velocity := b } : MIDITriggerToCVInterface)
        ({ t with velocity := b } : MIDITriggerToCVInterface) := by
    intro s t b hst
    obtain ⟨h1, h2, h3, h4, h5, h6, h7, h8⟩ := hst
    exact ⟨h1, h2, h3, h4, h5, rfl, h7, h8⟩
  unfold dataFromJson
  cases json_object_get rootJ "notes" with
  | none =>
    cases json_object_get rootJ "midi" with
    | none =>
      cases json_object_get rootJ "velocity" with
      | none => exact h
      | some velocityJ => exact hvel _ _ _ h
    | some midiJ =>
      cases json_object_get rootJ "velocity" with
      | none => exact hmidi _ _ _ h
      | some velocityJ => exact hvel _ _ _ (hmidi _ _ _ h)
  | some notesJ =>
    cases json_object_get rootJ "midi" with
    | none =>
      cases json_object_get rootJ "velocity" with
      | none => exact hnotes notesJ
      | some velocityJ => exact hvel _ _ _ (hnotes notesJ)
    | some midiJ =>
      cases json_object_get rootJ "velocity" with
      | none => exact hmidi _ _ _ (hnotes notesJ)
      | some velocityJ => exact hvel _ _ _ (hmidi _ _ _ (hnotes notesJ))

/-- The method `onReset` keeps two states in agreement. -/
theorem same_onReset (m n : MIDITriggerToCVInterface) (h : SameUpToIdleVelocities m n) :
    SameUpToIdleVelocities (onReset m) (onReset n) := by
  obtain ⟨h1, h2, h3, _, h5, h6, h7, h8⟩ :=
    foldl_same onResetBody same_onResetBody (List.finRange 16) m n h
  exact ⟨h1, h2, h3, rfl, h5, h6, h7, h8⟩

/-- After `onReset`, two states that differ in `velocities` only are in agreement: no
hold time is positive. -/
theorem same_onReset_of_velocities (m : MIDITriggerToCVInterface) (vs : Fin 16 → Nat) :
    SameUpToIdleVelocities (onReset m) (onReset { m with velocities := vs }) := by
  have hbody : ∀ s i, onResetBody { s with velocities := vs } i
      = (fun t : MIDITriggerToCVInterface => { t with velocities := vs }) (onResetBody s i) :=
    fun s i => rfl
  have hfold := foldl_comm_of_body onResetBody
    (fun t : MIDITriggerToCVInterface => { t with velocities := vs }) hbody (List.finRange 16) m
  have hreset : onReset { m with velocities := vs } = { onReset m with velocities := vs } := by
    unfold onReset
    rw [hfold]
  rw [hreset]
  refine ⟨rfl, rfl, rfl, rfl, rfl, rfl, rfl, ?_⟩
  intro i hi
  rw [(onReset_gates m i).2] at hi
  exact absurd hi (lt_irrefl 0)

end MIDITriggerToCVInterface

/-- Every event keeps two states in agreement. -/
theorem same_apply (floatSub : ℚ → ℚ → ℚ) (midiFromJson : midi.InputQueue → Json → midi.InputQueue)
    (a : Action)
    (m n : MIDITriggerToCVInterface) (h : SameUpToIdleVelocities m n) :
    OptionSame (Action.apply floatSub midiFromJson m a) (Action.apply floatSub midiFromJson n a) := by
  cases a with
  | pressNote note vel => exact same_pressNote note vel m n h
  | releaseNote note => exact same_releaseNote note m n h
  | processMessage msg => exact same_processMessage msg m n h
  | receive msg =>
    obtain ⟨h1, h2, h3, h4, h5, h6, h7, h8⟩ := h
    refine ⟨?_, h2, h3, h4, h5, h6, h7, h8⟩
    dsimp only
    rw [h1]
  | step dt => exact same_step floatSub dt m n h
  | dataFromJson rootJ => exact same_dataFromJson midiFromJson rootJ m n h
  | onSelect id =>
    obtain ⟨h1, h2, h3, _, h5, h6, h7, h8⟩ := h
    exact ⟨h1, h2, h3, rfl, h5, h6, h7, h8⟩
  | onDeselect =>
    obtain ⟨h1, h2, h3, _, h5, h6, h7, h8⟩ := h
    exact ⟨h1, h2, h3, rfl, h5, h6, h7, h8⟩
  | onReset => exact same_onReset m n h
  | toggleVelocity =>
    obtain ⟨h1, h2, h3, h4, h5, h6, h7, h8⟩ := h
    refine ⟨h1, h2, h3, h4, h5, ?_, h7, h8⟩
    show xor m.velocity true = xor n.velocity true
    rw [h6]

/-- Every sequence of events keeps two states in agreement. -/
theorem same_run (floatSub : ℚ → ℚ → ℚ) (midiFromJson : midi.InputQueue → Json → midi.InputQueue)
    (acts : List Action)
    (m n : MIDITriggerToCVInterface) (h : SameUpToIdleVelocities m n) :
    OptionSame (run floatSub midiFromJson m acts) (run floatSub midiFromJson n acts) := by
  induction acts generalizing m n with
  | nil => exact h
  | cons a rest ih =>
    have ha := same_apply floatSub midiFromJson a m n h
    simp only [run]
    cases hm : Action.apply floatSub midiFromJson m a with
    | none =>
      cases hn : Action.apply floatSub midiFromJson n a with
      | none => exact True.intro
      | some n1 => rw [hm, hn] at ha; exact ha.elim
    | some m1 =>
      cases hn : Action.apply floatSub midiFromJson n a with
      | none => rw [hm, hn] at ha; exact ha.elim
      | some n1 =>
        rw [hm, hn] at ha
        simp only [Option.some_bind]
        exact ih m1 n1 ha

/-- Results in agreement have the same outputs. -/
theorem outputs_of_optionSame (x y : Option MIDITriggerToCVInterface) (h : OptionSame x y) :
    x.map (fun s => s.outputs) = y.map (fun s => s.outputs) := by
  cases x with
  | none =>
    cases y with
    | none => rfl
    | some n => exact h.elim
  | some m =>
    cases y with
    | none => exact h.elim
    | some n =>
      simp only [Option.map_some', Option.some.injEq]
      exact h.2.2.2.2.2.2.1

/-- C19: for a module state `m` and any other contents `vs` of its `velocities` array,
`onReset()` followed by the same sequence of events (messages, ticks, loads,
velocity toggles, and the other events) gives the same output voltages on every
channel, after every such sequence and so at every tick; the same holds from
construction. -/
theorem outputs_independent_of_unset_velocities (floatSub : ℚ → ℚ → ℚ)
    (midiFromJson : midi.InputQueue → Json → midi.InputQueue)
    (m : MIDITriggerToCVInterface) (vs : Fin 16 → Nat) (acts : List Action) :
    (run floatSub midiFromJson (onReset m) acts).map (fun s => s.outputs)
      = (run floatSub midiFromJson (onReset { m with velocities := vs }) acts).map
          (fun s => s.outputs) ∧
    (run floatSub midiFromJson (construct m) acts).map (fun s => s.outputs)
      = (run floatSub midiFromJson (construct { m with velocities := vs }) acts).map
          (fun s => s.outputs) := by
  refine ⟨?_, ?_⟩
  · exact outputs_of_optionSame _ _
      (same_run floatSub midiFromJson acts _ _ (same_onReset_of_velocities m vs))
  · exact outputs_of_optionSame _ _
      (same_run floatSub midiFromJson acts _ _
        (same_onReset_of_velocities
          { m with learningId := -1, learnedNotes := fun _ => 0, velocity := false } vs))

/-- C19 at the sample sequence of events, for velocities left at 0 and left at 127. -/
theorem outputs_independent_of_unset_velocities_witness :
    (run exactSub (fun q _ => q) (onReset rawModule) sampleActions).map (fun s => s.outputs)
      = (run exactSub (fun q _ => q) (onReset { rawModule with velocities := fun _ => 127 })
          sampleActions).map (fun s => s.outputs) :=
  (outputs_independent_of_unset_velocities exactSub (fun q _ => q) rawModule (fun _ => 127)
    sampleActions).1

/-! ## Bounds of the learn cursor -/

/-- C20: with the learn cursor `-1` or a channel index, `pressNote` returns (its
write to `learnedNotes[learningId]` is inside the array), and `onReset`,
`pressNote`, `releaseNote`, `processMessage`, `step` and `dataFromJson` each
leave the learn cursor `-1` or a channel index, as do `onDeselect` and `onSelect`
with the identifier of a channel. -/
theorem learnCursor_stays_valid (floatSub : ℚ → ℚ → ℚ)
    (midiFromJson : midi.InputQueue → Json → midi.InputQueue)
    (m : MIDITriggerToCVInterface) (hvalid : LearnCursorValid m)
    (note vel : Nat) (msg : midi.Message) (dt : ℚ) (rootJ : Json) :
    (∃ m1, pressNoteLearn m note = some m1) ∧
    (∃ m2, pressNote m note vel = some m2 ∧ LearnCursorValid m2) ∧
    LearnCursorValid (onReset m) ∧
    LearnCursorValid (releaseNote m note) ∧
    (∃ m2, processMessage m msg = some m2 ∧ LearnCursorValid m2) ∧
    (∃ m2, MIDITriggerToCVInterface.step floatSub m dt = some m2 ∧ LearnCursorValid m2) ∧
    LearnCursorValid (dataFromJson midiFromJson m rootJ) ∧
    LearnCursorValid (onDeselect m) ∧
    (∀ K : Fin 16, LearnCursorValid (onSelect m K.val)) := by
  have h16 : m.learningId < 16 := by
    rcases hvalid with h | h
    · rw [h]; decide
    · exact h.2
  have hkeep : ∀ x : Int, (x = m.learningId ∨ x = -1) →
      (x = -1 ∨ (0 ≤ x ∧ x < 16)) := by
    intro x hx
    rcases hx with hx | hx
    · rw [hx]; exact hvalid
    · exact Or.inl hx
  refine ⟨?_, ?_, Or.inl rfl, ?_, ?_, ?_, ?_, Or.inl rfl, ?_⟩
  · obtain ⟨m2, h2, _⟩ := pressNote_learningId m note vel h16
    obtain ⟨m1, h1, _⟩ := pressNote_some m m2 note vel h2
    exact ⟨m1, h1⟩
  · obtain ⟨m2, h2, h3⟩ := pressNote_learningId m note vel h16
    refine ⟨m2, h2, hkeep _ ?_⟩
    rw [h3]
    split_ifs
    · exact Or.inr rfl
    · exact Or.inl rfl
  · exact hkeep _ (Or.inl (foldl_releaseNoteBody note (List.finRange 16) m).2.1)
  · obtain ⟨m2, h2, h3⟩ := processMessage_learningId m msg h16
    exact ⟨m2, h2, hkeep _ h3⟩
  · obtain ⟨m1, h1, h3⟩ := foldlM_processMessage_learningId m.midiInput.queue m h16
    refine ⟨stepOutputs floatSub dt { m1 with midiInput := { queue := [] } }, ?_, hkeep _ ?_⟩
    · simp only [MIDITriggerToCVInterface.step, drain_eq_foldlM, h1, Option.map_some']
    · rw [(stepOutputs_spec floatSub dt _).2.2.2.1]
      exact h3
  · exact hkeep _ (Or.inl (dataFromJson_fields midiFromJson m rootJ).2.2.2.1)
  · intro K
    have hK : ((K.val : Nat) : Int) < 16 := by exact_mod_cast K.isLt
    exact Or.inr ⟨Int.natCast_nonneg _, hK⟩

/-- C20 at a fresh module whose channel 3 is learning. -/
theorem learnCursor_stays_valid_witness :
    LearnCursorValid learningModule ∧
    (∃ m1, pressNoteLearn learningModule 72 = some m1) ∧
    (∃ m2, pressNote learningModule 72 100 = some m2 ∧ LearnCursorValid m2) ∧
    LearnCursorValid (onReset learningModule) ∧
    LearnCursorValid (releaseNote learningModule 72) ∧
    (∃ m2, processMessage learningModule ⟨0x9, 72, 100⟩ = some m2 ∧ LearnCursorValid m2) ∧
    (∃ m2, MIDITriggerToCVInterface.step exactSub learningModule (1 / 44100) = some m2 ∧
      LearnCursorValid m2) ∧
    LearnCursorValid (dataFromJson (fun q _ => q) learningModule shortNotesRecord) ∧
    LearnCursorValid (onDeselect learningModule) ∧
    (∀ K : Fin 16, LearnCursorValid (onSelect learningModule K.val)) :=
  ⟨Or.inr ⟨by decide, by decide⟩,
    learnCursor_stays_valid exactSub (fun q _ => q) learningModule (Or.inr ⟨by decide, by decide⟩)
      72 100 ⟨0x9, 72, 100⟩ (1 / 44100) shortNotesRecord⟩

end rack
